import Mathlib

/-!
SAM: the shuffle layer (`ZeroMQPushPull`), `EdgeRequestMap`, `Identity`, the
line readers and `main` of `ServerQuery`.

A shallow embedding of `SamSrc/ZeroMQPushPull.hpp`,
`SamSrc/sam/EdgeRequestMap.hpp`, `SamSrc/sam/Identity.hpp`,
`SamSrc/sam/ReadFile.hpp`, `SamSrc/ReadCSV.hpp` and of the parts of
`ExecutableSrc/ServerQuery.cpp` that drive a reader, build the filter
expression and choose the socket addresses, followed by the properties
proved about them.

Conventions of the embedding.

* A `std::string` is a Lean `String`; one `Char` stands for one byte.
* Calls on external collaborators (a ZeroMQ socket, the downstream producer
  chain, the edge communicator) are recorded in a log kept in the state, in
  call order.
* `size_t` and `uint32_t` values are natural numbers; a reduction modulo
  `2 ^ 64` or `2 ^ 32` is written where the machine operation can wrap.
* `x % n` is only defined in the source for `n ≠ 0`; the embedding uses the
  total `%` of Lean, and the statements are meant for a positive `numNodes`
  and `tableCapacity`.
-/

namespace sam

/-! ## Netflow tuples and their serialization -/

/-- Modelled from the spec: the tuple type of `Netflow.hpp`, which is not part
of the sources at hand. Position 0 is the identifier; the source and
destination endpoints are string fields; the other columns are kept, already
rendered, in `pre` (those before the source endpoint) and `post`. -/
structure Netflow where
  samGeneratedId : Nat
  pre : List String
  sourceIp : String
  destIp : String
  post : List String
  deriving DecidableEq, Repr

/-- The fields of a netflow after the identifier, in position order. -/
def Netflow.payloadFields (n : Netflow) : List String :=
  n.pre ++ [n.sourceIp, n.destIp] ++ n.post

/-- Comma-separated rendering of a list of fields. -/
def joinFields : List String → List Char
  | [] => []
  | [a] => a.data
  | a :: b :: rest => a.data ++ ',' :: joinFields (b :: rest)

/-- Modelled from the spec: `toString(Netflow)` of `Netflow.hpp`, which is not
part of the sources at hand: the fields, identifier first, separated by
commas. -/
def netflowToString (n : Netflow) : String :=
  String.mk (joinFields (Nat.repr n.samGeneratedId :: n.payloadFields))

/-- Modelled from the spec: `removeFirstElement` of the utility header, which
is not part of the sources at hand: the text after the first comma (the first
field and its separator are dropped). -/
def removeFirstElement (s : String) : String :=
  String.mk ((s.data.dropWhile (fun c => c != ',')).drop 1)

/-! ## Wire messages -/

/-- The C string terminator. -/
def nul : Char := Char.ofNat 0

/-- A `zmq::message_t`: the size of its buffer and the bytes that were written
to it, terminator included. Bytes of the buffer past `data` are not
initialised by the sender. -/
structure Message where
  size : Nat
  data : List Char
  deriving DecidableEq, Repr

/-- The message built in `consume`:
`zmq::message_t message(lengthString + 1);`
`snprintf((char*) message.data(), lengthString + 1, "%s", s.c_str());` -/
def mkMessage (s : String) : Message :=
  { size := s.data.length + 1
    data := s.data.takeWhile (fun c => c != nul) ++ [nul] }

/-- The string built in the pull task: `std::string sNetflow(buff)` reads
the buffer up to the first terminator. -/
def decodeMessage (m : Message) : String :=
  String.mk (m.data.takeWhile (fun c => c != nul))

/-! ## `ZeroMQPushPull`: push side -/

/-- Constructor arguments and the functions `consume` calls. `hash` is
`std::hash<std::string>`; `toString` is `none` where the serialization
throws. -/
structure ShuffleConfig where
  numNodes : Nat
  nodeId : Nat
  hash : String → Nat
  toString : Netflow → Option String
  removeFirstElement : String → String

/-- One `pushers[node]->send(message)` call. -/
structure PushRecord where
  node : Nat
  message : Message
  deriving DecidableEq, Repr

/-- Push-side state: `consumeCount` and the log of `send` calls on the push
sockets. -/
structure PushState where
  consumeCount : Nat
  pushed : List PushRecord
  deriving Repr

/-- An object on which `consume` was never called. -/
def PushState.init : PushState := { consumeCount := 0, pushed := [] }

/-- `ZeroMQPushPull::consume`. -/
def consume (cfg : ShuffleConfig) (st : PushState) (n : Netflow) : Bool × PushState :=
  let st1 := { st with consumeCount := (st.consumeCount + 1) % 2 ^ 64 }
  let source := n.sourceIp
  let dest := n.destIp
  let node1 := cfg.hash source % cfg.numNodes
  let node2 := cfg.hash dest % cfg.numNodes
  match cfg.toString n with
  | none => (false, st1)
  | some s0 =>
    let s := cfg.removeFirstElement s0
    let message1 := mkMessage s
    let st2 := { st1 with pushed := st1.pushed ++ [PushRecord.mk node1 message1] }
    let message2 := mkMessage s
    let st3 := { st2 with pushed := st2.pushed ++ [PushRecord.mk node2 message2] }
    (true, st3)

/-- The `send` calls made by one `consume` call. -/
def sendsOf (cfg : ShuffleConfig) (n : Netflow) : List PushRecord :=
  (consume cfg PushState.init n).2.pushed

/-! ## `ZeroMQPushPull`: pull side -/

/-- Conversion of a `uint32_t` value to `int` (`int pullCount = ...`). -/
def toInt32 (c : Nat) : Int :=
  if c % 2 ^ 32 < 2 ^ 31 then ((c % 2 ^ 32 : Nat) : Int) else ((c % 2 ^ 32 : Nat) : Int) - 2 ^ 32

/-- One `makeNetflow(pullCount, sNetflow)` whose result is handed to
`parallelFeed`: the two arguments, and the peer channel it came from. -/
structure Fed where
  channel : Nat
  id : Int
  text : String
  deriving DecidableEq, Repr

/-- Pull-side state: `pullCounters` and the log of tuples fed downstream. -/
structure PullState where
  pullCounters : Nat → Nat
  fed : List Fed

/-- The state built by the constructor: every counter is 0. -/
def PullState.init : PullState := { pullCounters := fun _ => 0, fed := [] }

/-- The body of the pull loop for a channel `i` with `POLLIN` set, `message`
being what `recv` returns, when `makeNetflow(pullCount, sNetflow)` returns;
`pullOneThrowing` below adds the case where it throws. -/
def pullOne (st : PullState) (i : Nat) (message : Message) : PullState :=
  let pullCount := toInt32 (st.pullCounters i)
  let counters := Function.update st.pullCounters i ((st.pullCounters i + 1) % 2 ^ 32)
  let sNetflow := decodeMessage message
  { pullCounters := counters, fed := st.fed ++ [⟨i, pullCount, sNetflow⟩] }

/-- What one `zmq::poll` reports: for each channel, the message waiting on it
when `POLLIN` is set. -/
abbrev PollResult := Nat → Option Message

/-- One iteration of `while (!stopPull)`: the `for` loop over the channels,
when `makeNetflow` returns on every message (`pollRoundThrowing` below has
the general case). -/
def pollRound (cfg : ShuffleConfig) (st : PullState) (ready : PollResult) : PullState :=
  (List.range cfg.numNodes).foldl
    (fun s i => match ready i with
      | some message => pullOne s i message
      | none => s) st

/-- The pull function run over the poll results it sees until `stopPull`,
when `makeNetflow` returns on every message (`pullFunctionThrowing` below has
the general case). -/
def pullFunction (cfg : ShuffleConfig) (st : PullState) (rounds : List PollResult) : PullState :=
  rounds.foldl (pollRound cfg) st

/-- The poll result in which only channel 0 has a message, `m`. -/
def onlyChannelZero (m : Message) : PollResult :=
  fun i => if i = 0 then some m else none

/-- A configuration with the serialization of the spec. -/
def specConfig (numNodes nodeId : Nat) (hash : String → Nat) : ShuffleConfig :=
  { numNodes := numNodes, nodeId := nodeId, hash := hash
    toString := fun n => some (netflowToString n)
    removeFirstElement := removeFirstElement }

/-- A sample netflow. -/
def sampleNetflow : Netflow :=
  { samGeneratedId := 0, pre := ["1.5"], sourceIp := "10.0.0.1", destIp := "10.0.0.22", post := ["80"] }

/-! ## `EdgeRequestMap` -/

/-- Modelled from the spec: the request type of `EdgeRequest.hpp`, which is
not part of the sources at hand: `(source, target, returnNode, expiry)`, with
`getSource`, `getTarget`, `getReturn` reading the first three. Times are only
ever compared, so a timestamp is a point of a linear order, here an
integer. -/
structure EdgeRequest (S T : Type) where
  source : S
  target : T
  returnNode : Nat
  expiry : Int
  deriving DecidableEq, Repr

/-- Modelled from the spec: `EdgeRequest::isExpired` of `EdgeRequest.hpp`,
which is not part of the sources at hand: `r.expiry < tuple.time`. -/
def EdgeRequest.isExpired {S T : Type} (r : EdgeRequest S T) (currentTime : Int) : Bool :=
  decide (r.expiry < currentTime)

/-- The positions of `TupleType` that `EdgeRequestMap` reads: `std::get<0>`,
`std::get<source>`, `std::get<target>` and `std::get<time>`. -/
structure EdgeTuple (S T : Type) where
  id : Nat
  source : S
  target : T
  time : Int
  deriving DecidableEq, Repr

/-- Template and constructor arguments of `EdgeRequestMap`, the `isNull`
overloads of `Null.hpp` for the two field types, and the outcome of the
calls `edgeCommunicator->send`: `sendResult k` is what the `k`-th call
(counting from 0) returns. -/
structure MapConfig (S T : Type) where
  sourceHash : S → Nat
  targetHash : T → Nat
  sourceEquals : S → S → Bool
  targetEquals : T → T → Bool
  isNullSource : S → Bool
  isNullTarget : T → Bool
  numNodes : Nat
  nodeId : Nat
  tableCapacity : Nat
  sendResult : Nat → Bool

/-- One `edgeCommunicator->send(toString(tuple), node)` call and what it
returned. -/
structure EdgeSend (S T : Type) where
  node : Nat
  tuple : EdgeTuple S T
  sent : Bool
  deriving DecidableEq, Repr

/-- The fields of `EdgeRequestMap` (metrics compiled in), with the log of the
calls made on the edge communicator: `sends` for `send`, and
`communicatorTerminations` counting the calls of its `terminate`. -/
structure MapState (S T : Type) where
  ale : Nat → List (EdgeRequest S T)
  terminated : Bool
  edgePushCounter : Nat
  sendFailCounter : Nat
  edgeRequestsViewedCounter : Nat
  sends : List (EdgeSend S T)
  communicatorTerminations : Nat

/-- The state built by the constructor. -/
def MapState.init {S T : Type} : MapState S T :=
  { ale := fun _ => [], terminated := false, edgePushCounter := 0, sendFailCounter := 0
    edgeRequestsViewedCounter := 0, sends := [], communicatorTerminations := 0 }

/-- Product of two `size_t` values. -/
def mulSize (a b : Nat) : Nat := (a * b) % 2 ^ 64

section EdgeRequestMap
variable {S T : Type}

/-- The lambda `sourceIndexFunction`. -/
def sourceIndexFunction (cfg : MapConfig S T) (tuple : EdgeTuple S T) : Nat :=
  cfg.sourceHash tuple.source % cfg.tableCapacity

/-- The lambda `targetIndexFunction`. -/
def targetIndexFunction (cfg : MapConfig S T) (tuple : EdgeTuple S T) : Nat :=
  cfg.targetHash tuple.target % cfg.tableCapacity

/-- The lambda `sourceTargetIndexFunction`. -/
def sourceTargetIndexFunction (cfg : MapConfig S T) (tuple : EdgeTuple S T) : Nat :=
  mulSize (cfg.sourceHash tuple.source) (cfg.targetHash tuple.target) % cfg.tableCapacity

/-- The lambda `sourceCheckFunction`. -/
def sourceCheckFunction (cfg : MapConfig S T) (edgeRequest : EdgeRequest S T)
    (tuple : EdgeTuple S T) : Bool :=
  let trg := tuple.target
  if cfg.sourceEquals tuple.source edgeRequest.source then
    let node := edgeRequest.returnNode
    if cfg.targetHash trg % cfg.numNodes != node then true else false
  else false

/-- The lambda `targetCheckFunction`. -/
def targetCheckFunction (cfg : MapConfig S T) (edgeRequest : EdgeRequest S T)
    (tuple : EdgeTuple S T) : Bool :=
  let src := tuple.source
  if cfg.targetEquals tuple.target edgeRequest.target then
    let node := edgeRequest.returnNode
    if cfg.sourceHash src % cfg.numNodes != node then true else false
  else false

/-- The lambda `sourceTargetCheckFunction`. -/
def sourceTargetCheckFunction (cfg : MapConfig S T) (edgeRequest : EdgeRequest S T)
    (tuple : EdgeTuple S T) : Bool :=
  let src := tuple.source
  let trg := tuple.target
  if cfg.targetEquals trg edgeRequest.target && cfg.sourceEquals src edgeRequest.source then
    let node := edgeRequest.returnNode
    if cfg.sourceHash src % cfg.numNodes != node && cfg.targetHash trg % cfg.numNodes != node
    then true else false
  else false

/-- Outcome of `addRequest`: the new state, or the `EdgeRequestMapException`
it throws. -/
inductive AddResult (S T : Type) where
  | ok : MapState S T → AddResult S T
  | edgeRequestMapException : AddResult S T

/-- The bucket index computed by `addRequest`; `none` where it throws. -/
def requestIndex (cfg : MapConfig S T) (request : EdgeRequest S T) : Option Nat :=
  let src := request.source
  let trg := request.target
  if cfg.isNullSource src && !cfg.isNullTarget trg then
    some (cfg.targetHash trg % cfg.tableCapacity)
  else if !cfg.isNullSource src && cfg.isNullTarget trg then
    some (cfg.sourceHash src % cfg.tableCapacity)
  else if !cfg.isNullSource src && !cfg.isNullTarget trg then
    some (mulSize (cfg.sourceHash src) (cfg.targetHash trg) % cfg.tableCapacity)
  else none

/-- `EdgeRequestMap::addRequest`. -/
def addRequest (cfg : MapConfig S T) (m : MapState S T) (request : EdgeRequest S T) :
    AddResult S T :=
  match requestIndex cfg request with
  | none => AddResult.edgeRequestMapException
  | some index =>
    AddResult.ok { m with ale := Function.update m.ale index (m.ale index ++ [request]) }

/-- The variables of one private `process` call that change in its loop. -/
structure PassState (S T : Type) where
  sentEdges : Nat → Bool
  count : Nat
  edgePushCounter : Nat
  sendFailCounter : Nat
  sends : List (EdgeSend S T)

/-- The body of the `else` branch of the loop of the private `process`: the
request is not expired. -/
def visitRequest (cfg : MapConfig S T) (checkFunction : EdgeRequest S T → EdgeTuple S T → Bool)
    (terminated : Bool) (tuple : EdgeTuple S T) (edgeRequest : EdgeRequest S T)
    (ps : PassState S T) : PassState S T :=
  let ps1 := { ps with count := ps.count + 1 }
  if checkFunction edgeRequest tuple then
    let node := edgeRequest.returnNode
    if !ps1.sentEdges node then
      if !terminated then
        let sent := cfg.sendResult ps1.sends.length
        let ps2 := { ps1 with
          sends := ps1.sends ++ [EdgeSend.mk node tuple sent]
          sentEdges := Function.update ps1.sentEdges node true }
        if !sent then { ps2 with sendFailCounter := ps2.sendFailCounter + 1 }
        else { ps2 with edgePushCounter := ps2.edgePushCounter + 1 }
      else ps1
    else ps1
  else ps1

/-- The loop of the private `process` over the list `ale[index]`: the
requests that stay in the list, and the variables after the loop. -/
def processLoop (cfg : MapConfig S T) (checkFunction : EdgeRequest S T → EdgeTuple S T → Bool)
    (terminated : Bool) (tuple : EdgeTuple S T) :
    List (EdgeRequest S T) → PassState S T → List (EdgeRequest S T) × PassState S T
  | [], ps => ([], ps)
  | edgeRequest :: rest, ps =>
    if edgeRequest.isExpired tuple.time then
      processLoop cfg checkFunction terminated tuple rest ps
    else
      let ps1 := visitRequest cfg checkFunction terminated tuple edgeRequest ps
      let (kept, ps2) := processLoop cfg checkFunction terminated tuple rest ps1
      (edgeRequest :: kept, ps2)

/-- The private `EdgeRequestMap::process(tuple, indexFunction, checkFunction)`:
the returned count and the new state. -/
def processPass (cfg : MapConfig S T) (m : MapState S T) (tuple : EdgeTuple S T)
    (indexFunction : EdgeTuple S T → Nat)
    (checkFunction : EdgeRequest S T → EdgeTuple S T → Bool) : Nat × MapState S T :=
  let index := indexFunction tuple
  let ps0 : PassState S T :=
    { sentEdges := fun _ => false, count := 0, edgePushCounter := m.edgePushCounter
      sendFailCounter := m.sendFailCounter, sends := m.sends }
  let viewed := m.edgeRequestsViewedCounter + (m.ale index).length
  let (kept, ps) := processLoop cfg checkFunction m.terminated tuple (m.ale index) ps0
  (ps.count,
    { m with
      ale := Function.update m.ale index kept
      edgeRequestsViewedCounter := viewed
      edgePushCounter := ps.edgePushCounter
      sendFailCounter := ps.sendFailCounter
      sends := ps.sends })

/-- The public `EdgeRequestMap::process(tuple)`. -/
def process (cfg : MapConfig S T) (m : MapState S T) (tuple : EdgeTuple S T) :
    Nat × MapState S T :=
  let totalWork := 0
  let r1 := processPass cfg m tuple (sourceIndexFunction cfg) (sourceCheckFunction cfg)
  let totalWork := totalWork + r1.1
  let r2 := processPass cfg r1.2 tuple (targetIndexFunction cfg) (targetCheckFunction cfg)
  let totalWork := totalWork + r2.1
  let r3 := processPass cfg r2.2 tuple (sourceTargetIndexFunction cfg)
    (sourceTargetCheckFunction cfg)
  let totalWork := totalWork + r3.1
  (totalWork, r3.2)

/-- `EdgeRequestMap::terminate`. -/
def terminate (m : MapState S T) : MapState S T :=
  let m1 := if !m.terminated then
      { m with communicatorTerminations := m.communicatorTerminations + 1 }
    else m
  { m1 with terminated := true }

/-- The nodes to which `process(tuple)` hands the tuple: the `send` calls it
adds to the log. -/
def sentNodes (cfg : MapConfig S T) (m : MapState S T) (tuple : EdgeTuple S T) : List Nat :=
  (((process cfg m tuple).2.sends).drop m.sends.length).map (fun e => e.node)

/-- The predicate of a request: every bound field equals the field of the
tuple. -/
def matchesRequest (cfg : MapConfig S T) (r : EdgeRequest S T) (tuple : EdgeTuple S T) : Bool :=
  (cfg.isNullSource r.source || cfg.sourceEquals tuple.source r.source) &&
  (cfg.isNullTarget r.target || cfg.targetEquals tuple.target r.target)

/-- The state `m1` is the state `m2` with the requests rejected by `keep`
taken out of every bucket (the requests-viewed counter apart). -/
def FilteredView (keep : EdgeRequest S T → Bool) (m1 m2 : MapState S T) : Prop :=
  m1.terminated = m2.terminated ∧ m1.sends = m2.sends ∧
  m1.edgePushCounter = m2.edgePushCounter ∧ m1.sendFailCounter = m2.sendFailCounter ∧
  ∀ j, m1.ale j = (m2.ale j).filter keep

end EdgeRequestMap

/-- A configuration over natural-number endpoints: the hash is the identity,
0 is the null value, and every `send` succeeds. -/
def natConfig (numNodes tableCapacity : Nat) : MapConfig Nat Nat :=
  { sourceHash := id, targetHash := id
    sourceEquals := fun a b => a == b, targetEquals := fun a b => a == b
    isNullSource := fun a => a == 0, isNullTarget := fun a => a == 0
    numNodes := numNodes, nodeId := 0, tableCapacity := tableCapacity
    sendResult := fun _ => true }

section EdgeRequestMapCalls
variable {S T : Type}

/-- The `send` calls added to the log by one private `process` call. -/
def passSends (cfg : MapConfig S T) (m : MapState S T) (tuple : EdgeTuple S T)
    (indexFunction : EdgeTuple S T → Nat)
    (checkFunction : EdgeRequest S T → EdgeTuple S T → Bool) : List (EdgeSend S T) :=
  ((processPass cfg m tuple indexFunction checkFunction).2.sends).drop m.sends.length

/-- The `send` calls added to the log by the public `process(tuple)`. -/
def newSends (cfg : MapConfig S T) (m : MapState S T) (tuple : EdgeTuple S T) :
    List (EdgeSend S T) :=
  ((process cfg m tuple).2.sends).drop m.sends.length

/-- The object after `addRequest` has returned or thrown: the `throw`
statement comes before every write, so the state stays as it was. -/
def afterAddRequest (cfg : MapConfig S T) (m : MapState S T) (request : EdgeRequest S T) :
    MapState S T :=
  match addRequest cfg m request with
  | AddResult.ok m2 => m2
  | AddResult.edgeRequestMapException => m

/-- A call of one of the public member functions. -/
inductive MapCall (S T : Type) where
  | addRequest : EdgeRequest S T → MapCall S T
  | process : EdgeTuple S T → MapCall S T
  | terminate : MapCall S T

/-- The object after one call. -/
def applyCall (cfg : MapConfig S T) (m : MapState S T) : MapCall S T → MapState S T
  | MapCall.addRequest r => afterAddRequest cfg m r
  | MapCall.process t => (process cfg m t).2
  | MapCall.terminate => terminate m

/-- The object after a sequence of calls. -/
def runCalls (cfg : MapConfig S T) (m : MapState S T) (calls : List (MapCall S T)) :
    MapState S T :=
  calls.foldl (applyCall cfg) m

end EdgeRequestMapCalls

/-! ## `Identity` -/

/-- Modelled from the spec: the feature variants of `Features.hpp`, which is
not part of the sources at hand. `V` stands for `double`. -/
inductive Feature (V : Type) where
  | SingleFeature : V → Feature V
  | TopKFeature : List String → List V → Feature V
  deriving DecidableEq, Repr

/-- Modelled from the spec: the `FeatureMap` of `FeatureMap.hpp`, which is not
part of the sources at hand: a mapping from `(tupleKey, identifier)` to a
feature. -/
abbrev FeatureMap (V : Type) := String → String → Option (Feature V)

/-- Modelled from the spec: `FeatureMap::updateInsert`, the replacement of
the entry under `(key, identifier)`. -/
def FeatureMap.updateInsert {V : Type} (fm : FeatureMap V) (key identifier : String)
    (feature : Feature V) : FeatureMap V :=
  fun k i => if k = key ∧ i = identifier then some feature else fm k i

/-- Template arguments of `Identity` as functions of the input
(`generateKey<keyFields...>`, `std::get<valueField>`, `std::get<0>`) and the
constructor arguments. -/
structure IdentityConfig (I V : Type) where
  generateKey : I → String
  valueField : I → V
  idField : I → Nat
  nodeId : Nat
  identifier : String

/-- The fields of `Identity` and the log of `notifySubscribers` calls. -/
structure IdentityState (V : Type) where
  feedCount : Nat
  featureMap : FeatureMap V
  notified : List (Nat × V)

/-- `Identity::consume`. -/
def Identity.consume {I V : Type} (cfg : IdentityConfig I V) (st : IdentityState V)
    (input : I) : Bool × IdentityState V :=
  let st1 := { st with feedCount := st.feedCount + 1 }
  let key := cfg.generateKey input
  let value := cfg.valueField input
  let feature := Feature.SingleFeature value
  let st2 := { st1 with featureMap := st1.featureMap.updateInsert key cfg.identifier feature }
  let id := cfg.idField input
  let st3 := { st2 with notified := st2.notified ++ [(id, value)] }
  (true, st3)

/-! ## The line readers `ReadFile` and `ReadCSV` -/

/-- What the file system holds under a name: the lines of the file, or
`none` when the file cannot be opened. -/
abbrev FileSystem := String → Option (List String)

/-- A `std::ifstream` after `open`: the lines `std::getline` will still
deliver, or `none` when the stream is in the failed state. -/
abbrev IfStream := Option (List String)

/-- The lines `while (std::getline(file, line))` iterates over. -/
def IfStream.getlines (file : IfStream) : List String := file.getD []

/-- One `consumer->consume(item)` call and what it returned. -/
structure ConsumeCall (C A : Type) where
  consumer : C
  item : A
  returned : Bool
  deriving DecidableEq, Repr

/-- The call without its return value. -/
def ConsumeCall.target {C A : Type} (c : ConsumeCall C A) : C × A := (c.consumer, c.item)

/-- The loop `for (auto consumer : consumers) consumer->consume(item);`.
`outcome k` is what the `k`-th `consume` call of the run returns; the loop
does not read it. -/
def feedConsumers {C A : Type} (outcome : Nat → Bool) (item : A) :
    List C → List (ConsumeCall C A) → List (ConsumeCall C A)
  | [], log => log
  | consumer :: rest, log =>
    feedConsumers outcome item rest (log ++ [ConsumeCall.mk consumer item (outcome log.length)])

/-- `ReadFile::connect`. -/
def ReadFile.connect (fs : FileSystem) (filename : String) : Bool × IfStream :=
  let myfile := fs filename
  (true, myfile)

/-- `ReadFile::receive`, as the loop over the lines `getline` delivers; the
counter `i` is only printed. -/
def ReadFile.receiveLoop {C : Type} (outcome : Nat → Bool) (consumers : List C) :
    List String → List (ConsumeCall C String) → List (ConsumeCall C String)
  | [], log => log
  | line :: rest, log =>
    ReadFile.receiveLoop outcome consumers rest (feedConsumers outcome line consumers log)

/-- `ReadFile::receive`: the log of `consume` calls. -/
def ReadFile.receive {C : Type} (outcome : Nat → Bool) (consumers : List C) (myfile : IfStream) :
    List (ConsumeCall C String) :=
  ReadFile.receiveLoop outcome consumers myfile.getlines []

/-- `ReadCSV::connect`. -/
def ReadCSV.connect (fs : FileSystem) (filename : String) : Bool × IfStream :=
  let file := fs filename
  (true, file)

/-- How `ReadCSV::receive` ends and the `consume` calls it has made:
`returned` is false when an exception of `makeNetflow` left the function. -/
structure ReceiveResult (C A : Type) where
  returned : Bool
  calls : List (ConsumeCall C A)

/-- `ReadCSV::receive`, as the loop over the lines `getline` delivers.
`makeNetflow` is the one-argument function of `Netflow.hpp`; it is `none` on
a line for which it throws, and nothing in `receive` catches. -/
def ReadCSV.receiveLoop {C : Type} (makeNetflow : String → Option Netflow)
    (outcome : Nat → Bool) (consumers : List C) :
    List String → List (ConsumeCall C Netflow) → ReceiveResult C Netflow
  | [], log => { returned := true, calls := log }
  | line :: rest, log =>
    match makeNetflow line with
    | none => { returned := false, calls := log }
    | some netflow =>
      ReadCSV.receiveLoop makeNetflow outcome consumers rest
        (feedConsumers outcome netflow consumers log)

/-- `ReadCSV::receive`. -/
def ReadCSV.receive {C : Type} (makeNetflow : String → Option Netflow)
    (outcome : Nat → Bool) (consumers : List C) (file : IfStream) : ReceiveResult C Netflow :=
  ReadCSV.receiveLoop makeNetflow outcome consumers file.getlines []

/-! ## `main` of `ServerQuery` -/

/-- The exit code of `main` in `ServerQuery.cpp` and whether it has called
`receive()` on its receiver, as far as the readers decide them: `help` is
`vm.count("help")`, and `socketConnects` is what `ReadSocket::connect`
returns in the branch without a learn file. The learning branch never calls
`receive`, and control then reaches the end of `main`. -/
def ServerQuery.main (fs : FileSystem) (help : Bool) (learnfile : String)
    (socketConnects : Bool) : Int × Bool :=
  if help then (1, false)
  else if learnfile != "" then
    let receiver := ReadCSV.connect fs learnfile
    if !receiver.1 then (-1, false) else (0, false)
  else
    if !socketConnects then (-1, false) else (0, true)

/-- A parser that rejects the line `bad` and reads every other line as the
sample netflow with the line as its source endpoint. -/
def taggedMakeNetflow (line : String) : Option Netflow :=
  if line = "bad" then none else some { sampleNetflow with sourceIp := line }

/-- A file system without any file. -/
def emptyFileSystem : FileSystem := fun _ => none

/-- A parser that rejects the line `bad` and reads every other line as the
sample netflow. -/
def sampleMakeNetflow (line : String) : Option Netflow :=
  if line = "bad" then none else some sampleNetflow

/-! ## `createPipeline` of `ServerQuery` -/

/-- Modelled from the spec: the token variants of `Expression.hpp`, which is
not part of the sources at hand. A function token carries the projection it
applies to the feature stored under its identifier; the projection has no
value where the source indexes past the end of the frequencies or casts a
feature of another variant. -/
inductive ExpressionToken (V : Type) where
  | NumberToken : V → ExpressionToken V
  | FuncToken : (Feature V → Option V) → String → ExpressionToken V
  | AddOperator : ExpressionToken V
  | SubOperator : ExpressionToken V
  | MultOperator : ExpressionToken V
  | DivOperator : ExpressionToken V
  | LessThanOperator : ExpressionToken V
  | GreaterThanOperator : ExpressionToken V
  | EqOperator : ExpressionToken V
  | AndOperator : ExpressionToken V
  | OrOperator : ExpressionToken V

/-- The body shared by the lambdas `function1` and `function2`:
`static_cast<TopKFeature const*>(feature)->getFrequencies()[index]`. -/
def frequencyAt {V : Type} (index : Nat) : Feature V → Option V
  | Feature.TopKFeature _ frequencies => frequencies[index]?
  | Feature.SingleFeature _ => none

/-- The variable `index1` of `createPipeline`: `int index1 = 0;`. -/
def createPipeline.index1 : Nat := 0

/-- The variable `index2` of `createPipeline`: `int index2 = 0;`. -/
def createPipeline.index2 : Nat := 0

/-- The lambda `function1`; it reads `index1`, which is never assigned
again. -/
def createPipeline.function1 {V : Type} : Feature V → Option V :=
  frequencyAt createPipeline.index1

/-- The lambda `function2`; it reads `index2`, which is never assigned
again. -/
def createPipeline.function2 {V : Type} : Feature V → Option V :=
  frequencyAt createPipeline.index2

/-- What `createPipeline` builds: the parameters of the `TopK` operator and
of the filter, and the infix list of the filter expression. -/
structure Pipeline where
  identifier : String
  k : Nat
  N : Nat
  b : Nat
  infixList : List (ExpressionToken Rat)
  filterIdentifier : String
  queueLength : Nat

/-- `createPipeline` of `ServerQuery.cpp`; the constant `0.9` is the
rational 9/10. -/
def createPipeline : Pipeline :=
  let identifier := "top2"
  let funcToken1 := ExpressionToken.FuncToken createPipeline.function1 identifier
  let addOper := ExpressionToken.AddOperator
  let funcToken2 := ExpressionToken.FuncToken createPipeline.function2 identifier
  let lessThanToken := ExpressionToken.LessThanOperator
  let numberToken := ExpressionToken.NumberToken (9 / 10 : Rat)
  { identifier := identifier, k := 2, N := 10000, b := 1000
    infixList := [funcToken1, addOper, funcToken2, lessThanToken, numberToken]
    filterIdentifier := "servers", queueLength := 1000 }

/-! ## The sockets of `ZeroMQPushPull` -/

/-- The constructor arguments of `ZeroMQPushPull` that decide the socket
addresses, and `getIpString`, the address lookup of a host name. -/
structure WiringConfig where
  numNodes : Nat
  nodeId : Nat
  hostnames : List String
  ports : List Int
  getIpString : String → String

/-- The url the constructor binds the push socket `i` to; no value where
`hostnames[nodeId]` or `ports[i]` is past the end of its vector. -/
def pushUrl (w : WiringConfig) (i : Nat) : Option String :=
  match w.hostnames[w.nodeId]?, w.ports[i]? with
  | some hostname, some port => some ("tcp://" ++ w.getIpString hostname ++ ":" ++ toString port)
  | _, _ => none

/-- The url the constructor connects the pull socket `i` to; no value where
`hostnames[i]` or `ports[nodeId]` is past the end of its vector. -/
def pullUrl (w : WiringConfig) (i : Nat) : Option String :=
  match w.hostnames[i]?, w.ports[w.nodeId]? with
  | some hostname, some port => some ("tcp://" ++ w.getIpString hostname ++ ":" ++ toString port)
  | _, _ => none

/-- The loop of the constructor: for each `i`, the url of the push socket and
the url of the pull socket. -/
def constructorSockets (w : WiringConfig) : List (Option String × Option String) :=
  (List.range w.numNodes).map (fun i => (pushUrl w i, pullUrl w i))

/-- The vector `hostnames` built by `main` of `ServerQuery`. -/
def ServerQuery.hostnames (numNodes : Nat) (namePrefix : String) : List String :=
  if numNodes = 1 then ["127.0.0.1"]
  else (List.range numNodes).map (fun (i : Nat) => namePrefix ++ toString i)

/-- The vector `ports` built by `main` of `ServerQuery`. -/
def ServerQuery.ports (numNodes : Nat) (startingPort : Int) : List Int :=
  if numNodes = 1 then [startingPort]
  else (List.range numNodes).map (fun (i : Nat) => startingPort + Int.ofNat i)

/-- The node `nodeId` of a cluster started with the same arguments. -/
def ServerQuery.wiring (numNodes nodeId : Nat) (namePrefix : String) (startingPort : Int)
    (getIpString : String → String) : WiringConfig :=
  { numNodes := numNodes, nodeId := nodeId
    hostnames := ServerQuery.hostnames numNodes namePrefix
    ports := ServerQuery.ports numNodes startingPort
    getIpString := getIpString }

/-! ## `EdgeRequestMap`: evictions, array indices, the destructor -/

section EdgeRequestMapAccesses
variable {S T : Type}

/-- The number of requests one private `process` call erases from its
bucket. -/
def passEvicted (cfg : MapConfig S T) (m : MapState S T) (tuple : EdgeTuple S T)
    (indexFunction : EdgeTuple S T → Nat)
    (checkFunction : EdgeRequest S T → EdgeTuple S T → Bool) : Nat :=
  (m.ale (indexFunction tuple)).length -
    ((processPass cfg m tuple indexFunction checkFunction).2.ale (indexFunction tuple)).length

/-- The state in which the target pass of `process(tuple)` starts. -/
def afterSourcePass (cfg : MapConfig S T) (m : MapState S T) (tuple : EdgeTuple S T) :
    MapState S T :=
  (processPass cfg m tuple (sourceIndexFunction cfg) (sourceCheckFunction cfg)).2

/-- The state in which the source-target pass of `process(tuple)` starts. -/
def afterTargetPass (cfg : MapConfig S T) (m : MapState S T) (tuple : EdgeTuple S T) :
    MapState S T :=
  (processPass cfg (afterSourcePass cfg m tuple) tuple (targetIndexFunction cfg)
    (targetCheckFunction cfg)).2

/-- The number of requests `process(tuple)` erases: those of its three
passes. -/
def evicted (cfg : MapConfig S T) (m : MapState S T) (tuple : EdgeTuple S T) : Nat :=
  passEvicted cfg m tuple (sourceIndexFunction cfg) (sourceCheckFunction cfg) +
  passEvicted cfg (afterSourcePass cfg m tuple) tuple (targetIndexFunction cfg)
    (targetCheckFunction cfg) +
  passEvicted cfg (afterTargetPass cfg m tuple) tuple (sourceTargetIndexFunction cfg)
    (sourceTargetCheckFunction cfg)

/-- The values of `node` with which the loop of a pass over the list `l`
evaluates `sentEdges[node]`: the return nodes of the requests that are not
expired and pass the check. -/
def sentEdgesIndices (checkFunction : EdgeRequest S T → EdgeTuple S T → Bool)
    (tuple : EdgeTuple S T) (l : List (EdgeRequest S T)) : List Nat :=
  (l.filter (fun r => !r.isExpired tuple.time && checkFunction r tuple)).map
    (fun r => r.returnNode)

/-- The destructor `~EdgeRequestMap`, which frees the two arrays and calls
`terminate()`: its effect on the flag and on the edge communicator. -/
def destructor (m : MapState S T) : MapState S T :=
  terminate m

end EdgeRequestMapAccesses

/-! ## Properties of the push side -/

theorem consume_pushed (cfg : ShuffleConfig) (st : PushState) (n : Netflow) (s : String)
    (h : cfg.toString n = some s) :
    (consume cfg st n).2.pushed = st.pushed ++
      [PushRecord.mk (cfg.hash n.sourceIp % cfg.numNodes) (mkMessage (cfg.removeFirstElement s)),
       PushRecord.mk (cfg.hash n.destIp % cfg.numNodes) (mkMessage (cfg.removeFirstElement s))] := by
  simp [consume, h]

theorem consume_pushed_none (cfg : ShuffleConfig) (st : PushState) (n : Netflow)
    (h : cfg.toString n = none) : (consume cfg st n).2.pushed = st.pushed := by
  simp [consume, h]

theorem consume_result (cfg : ShuffleConfig) (st : PushState) (n : Netflow) (s : String)
    (h : cfg.toString n = some s) : (consume cfg st n).1 = true := by
  simp [consume, h]

theorem consume_pushed_sendsOf (cfg : ShuffleConfig) (st : PushState) (n : Netflow) :
    (consume cfg st n).2.pushed = st.pushed ++ sendsOf cfg n := by
  unfold sendsOf
  cases h : cfg.toString n with
  | none => simp [consume_pushed_none, h, PushState.init]
  | some s => simp [consume_pushed cfg _ n s h, PushState.init]

/-- C1: a `consume(n)` whose serialization succeeds returns true and adds to
the log of push-socket sends a message for `hash(SourceIp(n)) mod numNodes`
and one for `hash(DestIp(n)) mod numNodes`, each carrying the tuple, and no
message for a socket of any other index. -/
theorem consume_routes_to_both_partitions (cfg : ShuffleConfig) (st : PushState) (n : Netflow)
    (s : String) (h : cfg.toString n = some s) :
    (consume cfg st n).1 = true ∧
    (consume cfg st n).2.pushed = st.pushed ++ sendsOf cfg n ∧
    PushRecord.mk (cfg.hash n.sourceIp % cfg.numNodes) (mkMessage (cfg.removeFirstElement s))
      ∈ sendsOf cfg n ∧
    PushRecord.mk (cfg.hash n.destIp % cfg.numNodes) (mkMessage (cfg.removeFirstElement s))
      ∈ sendsOf cfg n ∧
    ∀ r ∈ sendsOf cfg n, r.node = cfg.hash n.sourceIp % cfg.numNodes ∨
      r.node = cfg.hash n.destIp % cfg.numNodes := by
  have hs : sendsOf cfg n =
      [PushRecord.mk (cfg.hash n.sourceIp % cfg.numNodes) (mkMessage (cfg.removeFirstElement s)),
       PushRecord.mk (cfg.hash n.destIp % cfg.numNodes) (mkMessage (cfg.removeFirstElement s))] := by
    simp [sendsOf, consume_pushed cfg _ n s h, PushState.init]
  refine ⟨consume_result cfg st n s h, consume_pushed_sendsOf cfg st n, ?_, ?_, ?_⟩
  · rw [hs]; simp
  · rw [hs]; simp
  · intro r hr
    rw [hs] at hr
    simp only [List.mem_cons, List.mem_singleton, List.not_mem_nil, or_false] at hr
    rcases hr with rfl | rfl
    · exact Or.inl rfl
    · exact Or.inr rfl

theorem consume_routes_to_both_partitions_witness :
    (specConfig 2 0 String.length).toString sampleNetflow = some (netflowToString sampleNetflow) ∧
    (consume (specConfig 2 0 String.length) PushState.init sampleNetflow).1 = true :=
  ⟨rfl, (consume_routes_to_both_partitions (specConfig 2 0 String.length) PushState.init
    sampleNetflow (netflowToString sampleNetflow) rfl).1⟩

/-- C2 (as stated, refuted): with one node the two partitions of every
netflow coincide, yet `consume` logs two sends to node 0, not one. -/
theorem consume_coalesces_counterexample :
    (specConfig 1 0 String.length).hash sampleNetflow.sourceIp % 1 =
      (specConfig 1 0 String.length).hash sampleNetflow.destIp % 1 ∧
    (sendsOf (specConfig 1 0 String.length) sampleNetflow).map (fun r => r.node) = [0, 0] ∧
    (sendsOf (specConfig 1 0 String.length) sampleNetflow).length ≠ 1 := by
  refine ⟨by simp [Nat.mod_one], ?_, ?_⟩ <;>
    simp [sendsOf, consume, specConfig, PushState.init, Nat.mod_one]

/-- C2 (amended): when the two partitions of `n` coincide, `consume(n)` does
not coalesce: if the serialization of `n` succeeds it sends exactly two
messages, both to that node, with the same payload; if the serialization
fails it sends none. -/
theorem consume_same_node_sends_twice (cfg : ShuffleConfig) (n : Netflow)
    (hnode : cfg.hash n.sourceIp % cfg.numNodes = cfg.hash n.destIp % cfg.numNodes) :
    (∀ s : String, cfg.toString n = some s →
      sendsOf cfg n =
        List.replicate 2 (PushRecord.mk (cfg.hash n.sourceIp % cfg.numNodes)
          (mkMessage (cfg.removeFirstElement s)))) ∧
    (cfg.toString n = none → sendsOf cfg n = []) := by
  constructor
  · intro s h
    simp [sendsOf, consume_pushed cfg _ n s h, PushState.init, hnode, List.replicate]
  · intro h
    simp [sendsOf, consume_pushed_none cfg _ n h, PushState.init]

theorem consume_same_node_sends_twice_witness :
    sendsOf (specConfig 1 0 String.length) sampleNetflow =
      List.replicate 2 (PushRecord.mk ((specConfig 1 0 String.length).hash sampleNetflow.sourceIp % 1)
        (mkMessage (removeFirstElement (netflowToString sampleNetflow)))) :=
  (consume_same_node_sends_twice (specConfig 1 0 String.length) sampleNetflow
    (by simp [Nat.mod_one, specConfig])).1 (netflowToString sampleNetflow) rfl

/-! ## The serialization elides the identifier -/

theorem digitChar_ne_comma (d : Nat) (h : d < 10) : Nat.digitChar d ≠ ',' := by
  interval_cases d <;> decide

theorem toDigitsCore_no_comma (fuel : Nat) :
    ∀ (k : Nat) (ds : List Char), (∀ c ∈ ds, c ≠ ',') →
      ∀ c ∈ Nat.toDigitsCore 10 fuel k ds, c ≠ ',' := by
  induction fuel with
  | zero => intro k ds hds c hc; exact hds c (by simpa [Nat.toDigitsCore] using hc)
  | succ fuel ih =>
    intro k ds hds c hc
    have hcons : ∀ c ∈ Nat.digitChar (k % 10) :: ds, c ≠ ',' := by
      intro c hc
      rcases List.mem_cons.mp hc with rfl | hc
      · exact digitChar_ne_comma _ (Nat.mod_lt _ (by decide))
      · exact hds c hc
    simp only [Nat.toDigitsCore] at hc
    split at hc
    · exact hcons c hc
    · exact ih _ _ hcons c hc

theorem repr_no_comma (k : Nat) : ∀ c ∈ (Nat.repr k).data, c ≠ ',' := by
  intro c hc
  have hc2 : c ∈ Nat.toDigitsCore 10 (k + 1) k [] := by
    simpa [Nat.repr, Nat.toDigits, List.asString] using hc
  exact toDigitsCore_no_comma (k + 1) k [] (by simp) c hc2

theorem dropWhile_first_comma (l tl : List Char) (h : ∀ c ∈ l, c ≠ ',') :
    ((l ++ ',' :: tl).dropWhile (fun c => c != ',')).drop 1 = tl := by
  induction l with
  | nil => simp [List.dropWhile]
  | cons a l ih =>
    have ha : a ≠ ',' := h a (List.mem_cons_self _ _)
    have hl : ∀ c ∈ l, c ≠ ',' := fun c hc => h c (List.mem_cons_of_mem _ hc)
    have hne : (a != ',') = true := by simpa using ha
    rw [List.cons_append, List.dropWhile_cons, hne]
    simpa using ih hl

theorem payloadFields_ne_nil (n : Netflow) : n.payloadFields ≠ [] := by
  simp [Netflow.payloadFields]

theorem removeFirstElement_netflowToString (n : Netflow) :
    removeFirstElement (netflowToString n) = String.mk (joinFields n.payloadFields) := by
  cases hp : n.payloadFields with
  | nil => exact absurd hp (payloadFields_ne_nil n)
  | cons b rest =>
    simp only [removeFirstElement, netflowToString, hp, joinFields]
    rw [dropWhile_first_comma _ _ (repr_no_comma n.samGeneratedId)]

/-- C3: under the serialization of the spec, every message sent by
`consume(n)` carries the same payload, the comma-separated fields of `n`
without the identifier; two netflows that differ only in the identifier are
sent as the same messages to the same nodes. -/
theorem consume_payload_elides_id (numNodes nodeId : Nat) (hash : String → Nat) (n : Netflow) :
    (∀ r ∈ sendsOf (specConfig numNodes nodeId hash) n,
      r.message = mkMessage (removeFirstElement (netflowToString n))) ∧
    removeFirstElement (netflowToString n) = String.mk (joinFields n.payloadFields) ∧
    ∀ id2 : Nat, sendsOf (specConfig numNodes nodeId hash) { n with samGeneratedId := id2 } =
      sendsOf (specConfig numNodes nodeId hash) n := by
  refine ⟨?_, removeFirstElement_netflowToString n, ?_⟩
  · intro r hr
    have hs := consume_pushed (specConfig numNodes nodeId hash) PushState.init n
      (netflowToString n) rfl
    have hr2 : r ∈ [PushRecord.mk (hash n.sourceIp % numNodes)
          (mkMessage (removeFirstElement (netflowToString n))),
        PushRecord.mk (hash n.destIp % numNodes)
          (mkMessage (removeFirstElement (netflowToString n)))] := by
      unfold sendsOf at hr
      rw [hs] at hr
      simpa [PushState.init, specConfig] using hr
    simp only [List.mem_cons, List.mem_singleton, List.not_mem_nil, or_false] at hr2
    rcases hr2 with rfl | rfl <;> rfl
  · intro id2
    have h1 := consume_pushed (specConfig numNodes nodeId hash) PushState.init
      { n with samGeneratedId := id2 } (netflowToString { n with samGeneratedId := id2 }) rfl
    have h2 := consume_pushed (specConfig numNodes nodeId hash) PushState.init n
      (netflowToString n) rfl
    have e1 := removeFirstElement_netflowToString { n with samGeneratedId := id2 }
    have e2 := removeFirstElement_netflowToString n
    have hpf : Netflow.payloadFields { n with samGeneratedId := id2 } = n.payloadFields := rfl
    simp only [sendsOf, h1, h2]
    simp only [specConfig, e1, e2, hpf]

/-! ## Properties of the pull side -/

/-- C5 (as stated, refuted): a netflow with id 0 sent on a one-node shuffle
and received as the first message of its channel is fed with id 0, the id it
carried on the send side. -/
theorem receive_id_differs_counterexample :
    sampleNetflow.samGeneratedId = 0 ∧
    (sendsOf (specConfig 1 0 String.length) sampleNetflow).head? =
      some (PushRecord.mk 0 (mkMessage (removeFirstElement (netflowToString sampleNetflow)))) ∧
    ((pullFunction (specConfig 1 0 String.length) PullState.init
        [onlyChannelZero (mkMessage (removeFirstElement (netflowToString sampleNetflow)))]).fed.map
      (fun f => f.id)) = [(sampleNetflow.samGeneratedId : Int)] := by
  refine ⟨rfl, ?_, ?_⟩
  · simp [sendsOf, consume, specConfig, PushState.init, Nat.mod_one]
  · simp [pullFunction, pollRound, List.range_succ, onlyChannelZero, pullOne, PullState.init,
      specConfig, toInt32, sampleNetflow]

/-- C5 (amended): the id given to a tuple on receipt is the pull count of the
channel it arrives on, whatever id it carried on the send side: receiving any
message sent by `consume(n)` on channel `i` feeds the payload with the id
read from `pullCounters[i]`. -/
theorem receive_id_is_pull_count (cfg : ShuffleConfig) (n : Netflow) (s : String)
    (h : cfg.toString n = some s) (pst : PullState) (i : Nat) :
    ∀ r ∈ sendsOf cfg n, (pullOne pst i r.message).fed =
      pst.fed ++ [Fed.mk i (toInt32 (pst.pullCounters i))
        (decodeMessage (mkMessage (cfg.removeFirstElement s)))] := by
  intro r hr
  have hs : sendsOf cfg n =
      [PushRecord.mk (cfg.hash n.sourceIp % cfg.numNodes) (mkMessage (cfg.removeFirstElement s)),
       PushRecord.mk (cfg.hash n.destIp % cfg.numNodes) (mkMessage (cfg.removeFirstElement s))] := by
    simp [sendsOf, consume_pushed cfg _ n s h, PushState.init]
  rw [hs] at hr
  simp only [List.mem_cons, List.mem_singleton, List.not_mem_nil, or_false] at hr
  rcases hr with rfl | rfl <;> rfl

theorem receive_id_is_pull_count_witness :
    (pullOne PullState.init 1
        (PushRecord.mk 0 (mkMessage (removeFirstElement (netflowToString sampleNetflow)))).message).fed =
      PullState.init.fed ++ [Fed.mk 1 (toInt32 (PullState.init.pullCounters 1))
        (decodeMessage (mkMessage ((specConfig 2 0 String.length).removeFirstElement
          (netflowToString sampleNetflow))))] :=
  receive_id_is_pull_count (specConfig 2 0 String.length) sampleNetflow
    (netflowToString sampleNetflow) rfl PullState.init 1
    (PushRecord.mk 0 (mkMessage (removeFirstElement (netflowToString sampleNetflow))))
    (by simp [sendsOf, consume, specConfig, PushState.init, sampleNetflow]; decide)

section EdgeRequestMapProperties
variable {S T : Type}

theorem requestIndex_isSome (cfg : MapConfig S T) (r : EdgeRequest S T)
    (hbound : ¬ (cfg.isNullSource r.source = true ∧ cfg.isNullTarget r.target = true)) :
    ∃ index, requestIndex cfg r = some index := by
  unfold requestIndex
  cases hs : cfg.isNullSource r.source <;> cases ht : cfg.isNullTarget r.target <;>
    simp_all

theorem addRequest_of_index (cfg : MapConfig S T) (m : MapState S T) (r : EdgeRequest S T)
    (index : Nat) (h : requestIndex cfg r = some index) :
    addRequest cfg m r =
      AddResult.ok { m with ale := Function.update m.ale index (m.ale index ++ [r]) } := by
  simp [addRequest, h]

/-- What one visit of a request does to the log and to `sentEdges`. -/
theorem visitRequest_spec (cfg : MapConfig S T)
    (check : EdgeRequest S T → EdgeTuple S T → Bool) (terminated : Bool) (t : EdgeTuple S T)
    (r : EdgeRequest S T) (ps : PassState S T) :
    ∃ extra, (visitRequest cfg check terminated t r ps).sends = ps.sends ++ extra ∧
      (∀ node, (visitRequest cfg check terminated t r ps).sentEdges node = true →
        ps.sentEdges node = true ∨ node ∈ extra.map (fun e => e.node)) ∧
      (∀ node, ps.sentEdges node = true →
        (visitRequest cfg check terminated t r ps).sentEdges node = true) ∧
      (check r t = true → terminated = false →
        (visitRequest cfg check terminated t r ps).sentEdges r.returnNode = true) := by
  unfold visitRequest
  by_cases hc : check r t = true
  · by_cases hs : ps.sentEdges r.returnNode = true
    · refine ⟨[], ?_, ?_, ?_, ?_⟩ <;> simp [hc, hs]
    · cases terminated with
      | true => refine ⟨[], ?_, ?_, ?_, ?_⟩ <;> simp [hc, hs]
      | false =>
        refine ⟨[EdgeSend.mk r.returnNode t (cfg.sendResult ps.sends.length)], ?_, ?_, ?_, ?_⟩
        · cases hres : cfg.sendResult ps.sends.length <;> simp [hc, hs, hres]
        · intro node
          by_cases hn : node = r.returnNode
          · intro _; right; simp [hn]
          · cases hres : cfg.sendResult ps.sends.length <;>
              simp [hc, hs, hres, Function.update, hn]
        · intro node hnode
          have hn : node ≠ r.returnNode := by
            intro e; rw [e] at hnode; exact hs hnode
          cases hres : cfg.sendResult ps.sends.length <;>
            simp [hc, hs, hres, Function.update, hn, hnode]
        · intro _ _
          cases hres : cfg.sendResult ps.sends.length <;> simp [hc, hs, hres]
  · refine ⟨[], ?_, ?_, ?_, ?_⟩ <;> simp [hc]

/-- The requests left in the list are the ones that are not expired. -/
theorem processLoop_kept (cfg : MapConfig S T)
    (check : EdgeRequest S T → EdgeTuple S T → Bool) (terminated : Bool) (t : EdgeTuple S T)
    (l : List (EdgeRequest S T)) :
    ∀ ps : PassState S T, (processLoop cfg check terminated t l ps).1 =
      l.filter (fun q => !q.isExpired t.time) := by
  induction l with
  | nil => intro ps; simp [processLoop]
  | cons q l ih =>
    intro ps
    by_cases hq : q.isExpired t.time = true
    · simp [processLoop, hq, ih]
    · simp [processLoop, hq, ih]

/-- The loop only appends to the log; every flag of `sentEdges` it sets has a
send behind it; and a request that is not expired and passes the check has
its return node flagged when the map is not terminated. -/
theorem processLoop_spec (cfg : MapConfig S T)
    (check : EdgeRequest S T → EdgeTuple S T → Bool) (terminated : Bool) (t : EdgeTuple S T)
    (l : List (EdgeRequest S T)) :
    ∀ ps : PassState S T,
      ∃ extra, (processLoop cfg check terminated t l ps).2.sends = ps.sends ++ extra ∧
        (∀ node, (processLoop cfg check terminated t l ps).2.sentEdges node = true →
          ps.sentEdges node = true ∨ node ∈ extra.map (fun e => e.node)) ∧
        (∀ node, ps.sentEdges node = true →
          (processLoop cfg check terminated t l ps).2.sentEdges node = true) ∧
        (∀ r ∈ l, r.isExpired t.time = false → check r t = true → terminated = false →
          (processLoop cfg check terminated t l ps).2.sentEdges r.returnNode = true) := by
  induction l with
  | nil =>
    intro ps
    exact ⟨[], by simp [processLoop], by simp [processLoop], by simp [processLoop],
      by simp⟩
  | cons q l ih =>
    intro ps
    by_cases hq : q.isExpired t.time = true
    · obtain ⟨extra, h1, h2, h3, h4⟩ := ih ps
      refine ⟨extra, ?_, ?_, ?_, ?_⟩
      · simpa [processLoop, hq] using h1
      · simpa [processLoop, hq] using h2
      · simpa [processLoop, hq] using h3
      · intro r hr hne hc ht
        rcases List.mem_cons.mp hr with rfl | hr
        · rw [hq] at hne; exact absurd hne (by simp)
        · simpa [processLoop, hq] using h4 r hr hne hc ht
    · obtain ⟨e1, v1, v2, v3, v4⟩ := visitRequest_spec cfg check terminated t q ps
      obtain ⟨e2, h1, h2, h3, h4⟩ := ih (visitRequest cfg check terminated t q ps)
      have hloop : (processLoop cfg check terminated t (q :: l) ps).2 =
          (processLoop cfg check terminated t l (visitRequest cfg check terminated t q ps)).2 := by
        simp [processLoop, hq]
      rw [hloop]
      refine ⟨e1 ++ e2, ?_, ?_, ?_, ?_⟩
      · rw [h1, v1, List.append_assoc]
      · intro node hn
        rcases h2 node hn with h | h
        · rcases v2 node h with h | h
          · exact Or.inl h
          · right; simp only [List.map_append, List.mem_append]; exact Or.inl h
        · right; simp only [List.map_append, List.mem_append]; exact Or.inr h
      · intro node hn
        exact h3 node (v3 node hn)
      · intro r hr hne hc ht
        rcases List.mem_cons.mp hr with rfl | hr
        · exact h3 _ (v4 hc ht)
        · exact h4 r hr hne hc ht

/-- What one private `process` call does to the table, to the flag and to
the log. -/
theorem processPass_spec (cfg : MapConfig S T) (m : MapState S T) (t : EdgeTuple S T)
    (indexFn : EdgeTuple S T → Nat) (check : EdgeRequest S T → EdgeTuple S T → Bool) :
    (processPass cfg m t indexFn check).2.terminated = m.terminated ∧
    (processPass cfg m t indexFn check).2.ale =
      Function.update m.ale (indexFn t)
        ((m.ale (indexFn t)).filter (fun q => !q.isExpired t.time)) ∧
    ∃ extra, (processPass cfg m t indexFn check).2.sends = m.sends ++ extra ∧
      ∀ r ∈ m.ale (indexFn t), r.isExpired t.time = false → check r t = true →
        m.terminated = false → r.returnNode ∈ extra.map (fun e => e.node) := by
  have hk := processLoop_kept cfg check m.terminated t (m.ale (indexFn t))
    { sentEdges := fun _ => false, count := 0, edgePushCounter := m.edgePushCounter
      sendFailCounter := m.sendFailCounter, sends := m.sends }
  obtain ⟨extra, h1, h2, _, h4⟩ := processLoop_spec cfg check m.terminated t (m.ale (indexFn t))
    { sentEdges := fun _ => false, count := 0, edgePushCounter := m.edgePushCounter
      sendFailCounter := m.sendFailCounter, sends := m.sends }
  refine ⟨rfl, ?_, extra, ?_, ?_⟩
  · simp only [processPass]
    rw [hk]
  · simpa [processPass] using h1
  · intro r hr hne hc ht
    rcases h2 _ (h4 r hr hne hc ht) with h | h
    · simp at h
    · exact h

theorem processPass_mem (cfg : MapConfig S T) (m : MapState S T) (t : EdgeTuple S T)
    (indexFn : EdgeTuple S T → Nat) (check : EdgeRequest S T → EdgeTuple S T → Bool)
    (j : Nat) (r : EdgeRequest S T) (hr : r ∈ m.ale j) (hne : r.isExpired t.time = false) :
    r ∈ (processPass cfg m t indexFn check).2.ale j := by
  rw [(processPass_spec cfg m t indexFn check).2.1]
  by_cases hj : j = indexFn t
  · subst hj
    simp [List.mem_filter, hr, hne]
  · simp [Function.update, hj, hr]

/-- The sends of the public `process` are those of its three passes, in
order, appended to the log. -/
theorem process_sends (cfg : MapConfig S T) (m : MapState S T) (t : EdgeTuple S T) :
    ∃ e1 e2 e3,
      (processPass cfg m t (sourceIndexFunction cfg) (sourceCheckFunction cfg)).2.sends =
        m.sends ++ e1 ∧
      (processPass cfg
        (processPass cfg m t (sourceIndexFunction cfg) (sourceCheckFunction cfg)).2 t
        (targetIndexFunction cfg) (targetCheckFunction cfg)).2.sends = m.sends ++ e1 ++ e2 ∧
      (process cfg m t).2.sends = m.sends ++ e1 ++ e2 ++ e3 ∧
      sentNodes cfg m t = (e1 ++ e2 ++ e3).map (fun e => e.node) := by
  obtain ⟨_, _, e1, h1, _⟩ :=
    processPass_spec cfg m t (sourceIndexFunction cfg) (sourceCheckFunction cfg)
  obtain ⟨_, _, e2, h2, _⟩ := processPass_spec cfg
    (processPass cfg m t (sourceIndexFunction cfg) (sourceCheckFunction cfg)).2 t
    (targetIndexFunction cfg) (targetCheckFunction cfg)
  obtain ⟨_, _, e3, h3, _⟩ := processPass_spec cfg
    (processPass cfg
      (processPass cfg m t (sourceIndexFunction cfg) (sourceCheckFunction cfg)).2 t
      (targetIndexFunction cfg) (targetCheckFunction cfg)).2 t
    (sourceTargetIndexFunction cfg) (sourceTargetCheckFunction cfg)
  have hp : (process cfg m t).2.sends = m.sends ++ e1 ++ e2 ++ e3 := by
    simp only [process]
    rw [h3, h2, h1]
  refine ⟨e1, e2, e3, h1, ?_, hp, ?_⟩
  · rw [h2, h1]
  · simp only [sentNodes]
    rw [hp]
    simp [List.append_assoc]

/-! ## `EdgeRequestMap`: `addRequest` and `process` -/

/-- C7: for a request `r` with at least one bound field, `addRequest(r)`
appends `r` at the tail of one bucket and leaves every other bucket as it
was. The bucket is `targetHash(target) mod tableCapacity` when only the
target is bound, `sourceHash(source) mod tableCapacity` when only the source
is bound, and the `size_t` product `sourceHash(source) * targetHash(target)`
modulo `tableCapacity` when both are (the product itself where it fits in 64
bits). -/
theorem addRequest_appends_to_one_bucket (cfg : MapConfig S T) (m : MapState S T)
    (r : EdgeRequest S T)
    (hbound : ¬ (cfg.isNullSource r.source = true ∧ cfg.isNullTarget r.target = true)) :
    ∃ index m2, addRequest cfg m r = AddResult.ok m2 ∧
      m2.ale index = m.ale index ++ [r] ∧
      (∀ j, j ≠ index → m2.ale j = m.ale j) ∧
      (cfg.isNullSource r.source = true → cfg.isNullTarget r.target = false →
        index = cfg.targetHash r.target % cfg.tableCapacity) ∧
      (cfg.isNullSource r.source = false → cfg.isNullTarget r.target = true →
        index = cfg.sourceHash r.source % cfg.tableCapacity) ∧
      (cfg.isNullSource r.source = false → cfg.isNullTarget r.target = false →
        index = mulSize (cfg.sourceHash r.source) (cfg.targetHash r.target) % cfg.tableCapacity ∧
        (cfg.sourceHash r.source * cfg.targetHash r.target < 2 ^ 64 →
          index = (cfg.sourceHash r.source * cfg.targetHash r.target) % cfg.tableCapacity)) := by
  obtain ⟨index, hindex⟩ := requestIndex_isSome cfg r hbound
  refine ⟨index, _, addRequest_of_index cfg m r index hindex, ?_, ?_, ?_, ?_, ?_⟩
  · simp
  · intro j hj
    simp [Function.update, hj]
  · intro hs ht
    simp [requestIndex, hs, ht] at hindex
    exact hindex.symm
  · intro hs ht
    simp [requestIndex, hs, ht] at hindex
    exact hindex.symm
  · intro hs ht
    simp [requestIndex, hs, ht] at hindex
    refine ⟨hindex.symm, ?_⟩
    intro hlt
    rw [← hindex, mulSize, Nat.mod_eq_of_lt hlt]

theorem addRequest_appends_to_one_bucket_witness :
    ¬ ((natConfig 4 7).isNullSource (EdgeRequest.mk 5 8 3 100 : EdgeRequest Nat Nat).source = true ∧
      (natConfig 4 7).isNullTarget (EdgeRequest.mk 5 8 3 100 : EdgeRequest Nat Nat).target = true) ∧
    ∃ index m2, addRequest (natConfig 4 7) MapState.init (EdgeRequest.mk 5 8 3 100) =
        AddResult.ok m2 ∧
      m2.ale index = MapState.init.ale index ++ [EdgeRequest.mk 5 8 3 100] ∧
      index = 5 :=
  ⟨by decide,
    match addRequest_appends_to_one_bucket (natConfig 4 7) MapState.init
      (EdgeRequest.mk 5 8 3 100) (by decide) with
    | ⟨index, m2, h1, h2, _, _, _, h6⟩ =>
      ⟨index, m2, h1, h2, (h6 (by decide) (by decide)).2 (by decide)⟩⟩

/-- A request that sits in the bucket of its shape is served by `process`. -/
theorem process_serves_stored (cfg : MapConfig S T) (m : MapState S T) (r : EdgeRequest S T)
    (t : EdgeTuple S T) (index : Nat) (hindex : requestIndex cfg r = some index)
    (hstored : r ∈ m.ale index)
    (hsrc : cfg.isNullSource r.source = false → cfg.sourceEquals t.source r.source = true)
    (htrg : cfg.isNullTarget r.target = false → cfg.targetEquals t.target r.target = true)
    (hsh : ∀ a b, cfg.sourceEquals a b = true → cfg.sourceHash a = cfg.sourceHash b)
    (hth : ∀ a b, cfg.targetEquals a b = true → cfg.targetHash a = cfg.targetHash b)
    (hne : r.isExpired t.time = false)
    (hp1 : cfg.sourceHash t.source % cfg.numNodes ≠ r.returnNode)
    (hp2 : cfg.targetHash t.target % cfg.numNodes ≠ r.returnNode)
    (hterm : m.terminated = false) :
    r.returnNode ∈ sentNodes cfg m t := by
  obtain ⟨e1, e2, e3, h1, h2, h3, hsent⟩ := process_sends cfg m t
  obtain ⟨t1, _, x1, hx1, s1⟩ :=
    processPass_spec cfg m t (sourceIndexFunction cfg) (sourceCheckFunction cfg)
  obtain ⟨t2, _, x2, hx2, s2⟩ := processPass_spec cfg
    (processPass cfg m t (sourceIndexFunction cfg) (sourceCheckFunction cfg)).2 t
    (targetIndexFunction cfg) (targetCheckFunction cfg)
  obtain ⟨_, _, x3, hx3, s3⟩ := processPass_spec cfg
    (processPass cfg
      (processPass cfg m t (sourceIndexFunction cfg) (sourceCheckFunction cfg)).2 t
      (targetIndexFunction cfg) (targetCheckFunction cfg)).2 t
    (sourceTargetIndexFunction cfg) (sourceTargetCheckFunction cfg)
  have he1 : x1 = e1 := List.append_cancel_left (hx1.symm.trans h1)
  have he2 : x2 = e2 := by
    rw [h1] at hx2
    exact List.append_cancel_left (hx2.symm.trans h2)
  have he3 : x3 = e3 := by
    have hp : (process cfg m t).2.sends = m.sends ++ e1 ++ e2 ++ x3 := by
      simp only [process]
      rw [hx3, h2]
    exact List.append_cancel_left (hp.symm.trans h3)
  subst he1 he2 he3
  rw [hsent]
  simp only [List.map_append, List.mem_append]
  have hm1 := processPass_mem cfg m t (sourceIndexFunction cfg) (sourceCheckFunction cfg)
  have hm2 := processPass_mem cfg
    (processPass cfg m t (sourceIndexFunction cfg) (sourceCheckFunction cfg)).2 t
    (targetIndexFunction cfg) (targetCheckFunction cfg)
  cases hs : cfg.isNullSource r.source <;> cases ht : cfg.isNullTarget r.target
  · -- both bound: third pass
    have hse := hsrc hs
    have hte := htrg ht
    simp [requestIndex, hs, ht] at hindex
    have hidx : sourceTargetIndexFunction cfg t = index := by
      rw [← hindex, sourceTargetIndexFunction, hsh _ _ hse, hth _ _ hte]
    have hc : sourceTargetCheckFunction cfg r t = true := by
      simp [sourceTargetCheckFunction, hse, hte, hp1, hp2]
    right
    apply s3 r _ hne hc (by rw [t2, t1, hterm])
    rw [hidx]
    exact hm2 index r (hm1 index r hstored hne) hne
  · -- only the source is bound: first pass
    have hse := hsrc hs
    simp [requestIndex, hs, ht] at hindex
    have hidx : sourceIndexFunction cfg t = index := by
      rw [← hindex, sourceIndexFunction, hsh _ _ hse]
    have hc : sourceCheckFunction cfg r t = true := by
      simp [sourceCheckFunction, hse, hp2]
    left; left
    apply s1 r _ hne hc hterm
    rw [hidx]
    exact hstored
  · -- only the target is bound: second pass
    have hte := htrg ht
    simp [requestIndex, hs, ht] at hindex
    have hidx : targetIndexFunction cfg t = index := by
      rw [← hindex, targetIndexFunction, hth _ _ hte]
    have hc : targetCheckFunction cfg r t = true := by
      simp [targetCheckFunction, hte, hp1]
    left; right
    apply s2 r _ hne hc (by rw [t1, hterm])
    rw [hidx]
    exact hm1 index r hstored hne
  · simp [requestIndex, hs, ht] at hindex

/-- C8: a request `r` with at least one bound field that `addRequest` has
stored is served by `process(t)`: when the source and target of `t` equal the
bound fields of `r` (the hash functions agreeing with the equality
functions), `r` is not expired at the time of `t`, `r.returnNode` is neither
natural partition of `t`, and the map is not terminated, `process(t)` sends
`t` to `r.returnNode`. -/
theorem process_transmits_to_requester (cfg : MapConfig S T) (m m2 : MapState S T)
    (r : EdgeRequest S T) (t : EdgeTuple S T)
    (hbound : ¬ (cfg.isNullSource r.source = true ∧ cfg.isNullTarget r.target = true))
    (hadd : addRequest cfg m r = AddResult.ok m2)
    (hsrc : cfg.isNullSource r.source = false → cfg.sourceEquals t.source r.source = true)
    (htrg : cfg.isNullTarget r.target = false → cfg.targetEquals t.target r.target = true)
    (hsh : ∀ a b, cfg.sourceEquals a b = true → cfg.sourceHash a = cfg.sourceHash b)
    (hth : ∀ a b, cfg.targetEquals a b = true → cfg.targetHash a = cfg.targetHash b)
    (hne : r.isExpired t.time = false)
    (hp1 : cfg.sourceHash t.source % cfg.numNodes ≠ r.returnNode)
    (hp2 : cfg.targetHash t.target % cfg.numNodes ≠ r.returnNode)
    (hterm : m.terminated = false) :
    r.returnNode ∈ sentNodes cfg m2 t := by
  obtain ⟨index, hindex⟩ := requestIndex_isSome cfg r hbound
  rw [addRequest_of_index cfg m r index hindex] at hadd
  injection hadd with hm2
  subst hm2
  exact process_serves_stored cfg
    { m with ale := Function.update m.ale index (m.ale index ++ [r]) } r t index hindex
    (by simp) hsrc htrg hsh hth hne hp1 hp2 hterm

theorem process_transmits_to_requester_witness :
    (3 : Nat) ∈ sentNodes (natConfig 4 7)
      { (MapState.init : MapState Nat Nat) with
        ale := Function.update MapState.init.ale 5 (MapState.init.ale 5 ++ [EdgeRequest.mk 5 0 3 100]) }
      (EdgeTuple.mk 0 5 6 50) :=
  process_transmits_to_requester (natConfig 4 7) MapState.init _ (EdgeRequest.mk 5 0 3 100)
    (EdgeTuple.mk 0 5 6 50) (by decide) rfl (fun _ => by decide) (fun h => absurd h (by decide))
    (fun a b h => by simpa [natConfig] using h) (fun a b h => by simpa [natConfig] using h)
    (by decide) (by decide) (by decide) rfl

/-- C9 (the code at the failing input): with 7 buckets and 4 nodes, the only
stored request binds source 5 and target 8 and lands in bucket 5; `process`
of the tuple with source 5 and target 6 visits bucket 5 in its source pass
and sends the tuple to the return node 3, although the predicate of the
request does not match the tuple. -/
theorem process_sends_for_unmatched_request :
    addRequest (natConfig 4 7) MapState.init (EdgeRequest.mk 5 8 3 100) =
      AddResult.ok { (MapState.init : MapState Nat Nat) with
        ale := Function.update MapState.init.ale 5 (MapState.init.ale 5 ++ [EdgeRequest.mk 5 8 3 100]) } ∧
    sentNodes (natConfig 4 7)
      { (MapState.init : MapState Nat Nat) with
        ale := Function.update MapState.init.ale 5 (MapState.init.ale 5 ++ [EdgeRequest.mk 5 8 3 100]) }
      (EdgeTuple.mk 0 5 6 50) = [3] ∧
    matchesRequest (natConfig 4 7) (EdgeRequest.mk 5 8 3 100) (EdgeTuple.mk 0 5 6 50) = false := by
  refine ⟨addRequest_of_index _ _ _ 5 (by decide), by decide, by decide⟩

/-! ## `EdgeRequestMap`: expired requests -/

/-- Taking expired requests out of the list beforehand does not change what
the loop does. -/
theorem processLoop_filter (cfg : MapConfig S T)
    (check : EdgeRequest S T → EdgeTuple S T → Bool) (terminated : Bool) (t : EdgeTuple S T)
    (keep : EdgeRequest S T → Bool) (l : List (EdgeRequest S T))
    (hkeep : ∀ q ∈ l, keep q = false → q.isExpired t.time = true) :
    ∀ ps : PassState S T, processLoop cfg check terminated t (l.filter keep) ps =
      processLoop cfg check terminated t l ps := by
  induction l with
  | nil => intro ps; rfl
  | cons q l ih =>
    intro ps
    have ih2 := ih (fun x hx => hkeep x (List.mem_cons_of_mem _ hx))
    cases hk : keep q with
    | true =>
      rw [List.filter_cons_of_pos (by simpa using hk)]
      by_cases hq : q.isExpired t.time = true
      · simp only [processLoop, hq, if_true]; exact ih2 ps
      · simp [processLoop, hq, ih2]
    | false =>
      have hq := hkeep q (List.mem_cons_self _ _) hk
      rw [List.filter_cons_of_neg (by simp [hk])]
      simp only [processLoop, hq, if_true]
      exact ih2 ps

theorem processPass_filtered (cfg : MapConfig S T) (t : EdgeTuple S T)
    (indexFn : EdgeTuple S T → Nat) (check : EdgeRequest S T → EdgeTuple S T → Bool)
    (keep : EdgeRequest S T → Bool)
    (hkeep : ∀ q, keep q = false → q.isExpired t.time = true)
    (m1 m2 : MapState S T) (hv : FilteredView keep m1 m2) :
    (processPass cfg m1 t indexFn check).1 = (processPass cfg m2 t indexFn check).1 ∧
    FilteredView keep (processPass cfg m1 t indexFn check).2
      (processPass cfg m2 t indexFn check).2 := by
  obtain ⟨ht, hs, he, hf, ha⟩ := hv
  have hloop := processLoop_filter cfg check m2.terminated t keep (m2.ale (indexFn t))
    (fun q _ => hkeep q)
    { sentEdges := fun _ => false, count := 0, edgePushCounter := m2.edgePushCounter
      sendFailCounter := m2.sendFailCounter, sends := m2.sends }
  have e : processLoop cfg check m1.terminated t (m1.ale (indexFn t))
      { sentEdges := fun _ => false, count := 0, edgePushCounter := m1.edgePushCounter
        sendFailCounter := m1.sendFailCounter, sends := m1.sends } =
      processLoop cfg check m2.terminated t (m2.ale (indexFn t))
      { sentEdges := fun _ => false, count := 0, edgePushCounter := m2.edgePushCounter
        sendFailCounter := m2.sendFailCounter, sends := m2.sends } := by
    rw [ht, hs, he, hf, ha]; exact hloop
  have hk := processLoop_kept cfg check m2.terminated t (m2.ale (indexFn t))
    { sentEdges := fun _ => false, count := 0, edgePushCounter := m2.edgePushCounter
      sendFailCounter := m2.sendFailCounter, sends := m2.sends }
  refine ⟨?_, ?_, ?_, ?_, ?_, ?_⟩
  · simp only [processPass]; rw [e]
  · simp only [processPass]; exact ht
  · simp only [processPass]; rw [e]
  · simp only [processPass]; rw [e]
  · simp only [processPass]; rw [e]
  · intro j
    simp only [processPass]
    rw [e, hk]
    by_cases hj : j = indexFn t
    · subst hj
      simp only [Function.update_same]
      symm
      apply List.filter_eq_self.mpr
      intro q hq
      have hne : q.isExpired t.time = false := by
        have := (List.mem_filter.mp hq).2
        simpa using this
      cases hkq : keep q with
      | true => rfl
      | false => rw [hkeep q hkq] at hne; exact absurd hne (by simp)
    · simp only [Function.update, hj, dif_neg, not_false_eq_true]
      exact ha j

theorem processPass_subset (cfg : MapConfig S T) (m : MapState S T) (t : EdgeTuple S T)
    (indexFn : EdgeTuple S T → Nat) (check : EdgeRequest S T → EdgeTuple S T → Bool)
    (j : Nat) (q : EdgeRequest S T)
    (hq : q ∈ (processPass cfg m t indexFn check).2.ale j) : q ∈ m.ale j := by
  rw [(processPass_spec cfg m t indexFn check).2.1] at hq
  by_cases hj : j = indexFn t
  · subst hj
    simp only [Function.update_same] at hq
    exact (List.mem_filter.mp hq).1
  · simpa [Function.update, hj] using hq

theorem processPass_visited (cfg : MapConfig S T) (m : MapState S T) (t : EdgeTuple S T)
    (indexFn : EdgeTuple S T → Nat) (check : EdgeRequest S T → EdgeTuple S T → Bool)
    (q : EdgeRequest S T)
    (hq : q ∈ (processPass cfg m t indexFn check).2.ale (indexFn t)) :
    q.isExpired t.time = false := by
  rw [(processPass_spec cfg m t indexFn check).2.1] at hq
  simp only [Function.update_same] at hq
  simpa using (List.mem_filter.mp hq).2

/-- C10: a request `r` stored in a bucket that `process(t)` visits and
expired at the time of `t` (`r.expiry < t.time`) is no longer in that bucket
after `process(t)`, and it causes no send: the calls logged are the ones
made when `r` is in no bucket at all, whether or not `t` matches `r`. -/
theorem process_evicts_expired [DecidableEq S] [DecidableEq T] (cfg : MapConfig S T)
    (m : MapState S T) (t : EdgeTuple S T) (index : Nat) (r : EdgeRequest S T)
    (hvisit : index = sourceIndexFunction cfg t ∨ index = targetIndexFunction cfg t ∨
      index = sourceTargetIndexFunction cfg t)
    (_hstored : r ∈ m.ale index) (hexp : r.expiry < t.time) :
    r ∉ (process cfg m t).2.ale index ∧
    (process cfg { m with ale := fun j => (m.ale j).filter (fun q => decide (q ≠ r)) } t).2.sends =
      (process cfg m t).2.sends := by
  have hexp2 : r.isExpired t.time = true := by simpa [EdgeRequest.isExpired] using hexp
  constructor
  · intro hmem
    have hmem3 : r ∈ (processPass cfg
        (processPass cfg
          (processPass cfg m t (sourceIndexFunction cfg) (sourceCheckFunction cfg)).2 t
          (targetIndexFunction cfg) (targetCheckFunction cfg)).2 t
        (sourceTargetIndexFunction cfg) (sourceTargetCheckFunction cfg)).2.ale index := hmem
    have hmem2 := processPass_subset _ _ _ _ _ _ _ hmem3
    have hmem1 := processPass_subset _ _ _ _ _ _ _ hmem2
    have hfalse : r.isExpired t.time = false := by
      rcases hvisit with h | h | h
      · rw [h] at hmem1; exact processPass_visited _ _ _ _ _ _ hmem1
      · rw [h] at hmem2; exact processPass_visited _ _ _ _ _ _ hmem2
      · rw [h] at hmem3; exact processPass_visited _ _ _ _ _ _ hmem3
    rw [hexp2] at hfalse
    exact absurd hfalse (by simp)
  · have hkeep : ∀ q : EdgeRequest S T, decide (q ≠ r) = false → q.isExpired t.time = true := by
      intro q hq
      have : q = r := by simpa using hq
      rw [this]; exact hexp2
    have h0 : FilteredView (fun q => decide (q ≠ r))
        { m with ale := fun j => (m.ale j).filter (fun q => decide (q ≠ r)) } m :=
      ⟨rfl, rfl, rfl, rfl, fun _ => rfl⟩
    have h1 := (processPass_filtered cfg t (sourceIndexFunction cfg) (sourceCheckFunction cfg)
      _ hkeep _ _ h0).2
    have h2 := (processPass_filtered cfg t (targetIndexFunction cfg) (targetCheckFunction cfg)
      _ hkeep _ _ h1).2
    have h3 := (processPass_filtered cfg t (sourceTargetIndexFunction cfg)
      (sourceTargetCheckFunction cfg) _ hkeep _ _ h2).2
    exact h3.2.1

theorem process_evicts_expired_witness :
    ((EdgeRequest.mk 5 0 3 100 : EdgeRequest Nat Nat) ∉
      (process (natConfig 4 7)
        { (MapState.init : MapState Nat Nat) with
          ale := Function.update MapState.init.ale 5 [EdgeRequest.mk 5 0 3 100] }
        (EdgeTuple.mk 0 5 6 101)).2.ale 5 ∧
    (process (natConfig 4 7)
      { (MapState.init : MapState Nat Nat) with
        ale := fun j => (Function.update MapState.init.ale 5 [EdgeRequest.mk 5 0 3 100] j).filter
          (fun q => decide (q ≠ EdgeRequest.mk 5 0 3 100)) }
      (EdgeTuple.mk 0 5 6 101)).2.sends =
    (process (natConfig 4 7)
      { (MapState.init : MapState Nat Nat) with
        ale := Function.update MapState.init.ale 5 [EdgeRequest.mk 5 0 3 100] }
      (EdgeTuple.mk 0 5 6 101)).2.sends) ∧
    matchesRequest (natConfig 4 7) (EdgeRequest.mk 5 0 3 100) (EdgeTuple.mk 0 5 6 101) = true ∧
    sentNodes (natConfig 4 7)
      { (MapState.init : MapState Nat Nat) with
        ale := Function.update MapState.init.ale 5 [EdgeRequest.mk 5 0 3 100] }
      (EdgeTuple.mk 0 5 6 101) = [] :=
  ⟨process_evicts_expired (natConfig 4 7)
    { (MapState.init : MapState Nat Nat) with
      ale := Function.update MapState.init.ale 5 [EdgeRequest.mk 5 0 3 100] }
    (EdgeTuple.mk 0 5 6 101) 5 (EdgeRequest.mk 5 0 3 100) (Or.inl (by decide)) (by decide)
    (by decide), by decide, by decide⟩

/-! ## `EdgeRequestMap`: what a pass logs and counts -/

/-- One visit adds at most one record to the log, for the return node of the
request, only when the check accepts it, the node is not flagged and the map
is not terminated; the record is counted in exactly one of the two
counters. -/
theorem visitRequest_log (cfg : MapConfig S T)
    (check : EdgeRequest S T → EdgeTuple S T → Bool) (terminated : Bool) (t : EdgeTuple S T)
    (r : EdgeRequest S T) (ps : PassState S T) :
    ∃ extra, (visitRequest cfg check terminated t r ps).sends = ps.sends ++ extra ∧
      (∀ e ∈ extra, check r t = true ∧ e.node = r.returnNode ∧ e.tuple = t ∧
        ps.sentEdges e.node = false ∧ terminated = false) ∧
      extra.length ≤ 1 ∧
      (∀ e ∈ extra, (visitRequest cfg check terminated t r ps).sentEdges e.node = true) ∧
      (visitRequest cfg check terminated t r ps).edgePushCounter =
        ps.edgePushCounter + (extra.filter (fun e => e.sent)).length ∧
      (visitRequest cfg check terminated t r ps).sendFailCounter =
        ps.sendFailCounter + (extra.filter (fun e => !e.sent)).length ∧
      (visitRequest cfg check terminated t r ps).count = ps.count + 1 := by
  unfold visitRequest
  by_cases hc : check r t = true
  · by_cases hs : ps.sentEdges r.returnNode = true
    · exact ⟨[], by simp [hc, hs]⟩
    · cases terminated with
      | true => exact ⟨[], by simp [hc, hs]⟩
      | false =>
        refine ⟨[EdgeSend.mk r.returnNode t (cfg.sendResult ps.sends.length)], ?_⟩
        cases hres : cfg.sendResult ps.sends.length <;> simp [hc, hs, hres]
  · exact ⟨[], by simp [hc]⟩

/-- What the loop of one pass logs and counts. -/
theorem processLoop_log (cfg : MapConfig S T)
    (check : EdgeRequest S T → EdgeTuple S T → Bool) (terminated : Bool) (t : EdgeTuple S T)
    (l : List (EdgeRequest S T)) :
    ∀ ps : PassState S T,
      ∃ extra, (processLoop cfg check terminated t l ps).2.sends = ps.sends ++ extra ∧
        (∀ e ∈ extra, ∃ r ∈ l, r.isExpired t.time = false ∧ check r t = true ∧
          e.node = r.returnNode ∧ e.tuple = t ∧ ps.sentEdges e.node = false ∧
          terminated = false) ∧
        (extra.map (fun e => e.node)).Nodup ∧
        (processLoop cfg check terminated t l ps).2.edgePushCounter =
          ps.edgePushCounter + (extra.filter (fun e => e.sent)).length ∧
        (processLoop cfg check terminated t l ps).2.sendFailCounter =
          ps.sendFailCounter + (extra.filter (fun e => !e.sent)).length ∧
        (processLoop cfg check terminated t l ps).2.count =
          ps.count + (l.filter (fun q => !q.isExpired t.time)).length := by
  induction l with
  | nil =>
    intro ps
    exact ⟨[], by simp [processLoop]⟩
  | cons q l ih =>
    intro ps
    by_cases hq : q.isExpired t.time = true
    · obtain ⟨extra, h1, h2, h3, h4, h5, h6⟩ := ih ps
      have hloop : (processLoop cfg check terminated t (q :: l) ps).2 =
          (processLoop cfg check terminated t l ps).2 := by
        simp [processLoop, hq]
      rw [hloop]
      refine ⟨extra, h1, ?_, h3, h4, h5, ?_⟩
      · intro e he
        obtain ⟨r, hr, hrest⟩ := h2 e he
        exact ⟨r, List.mem_cons_of_mem _ hr, hrest⟩
      · rw [h6]; simp [List.filter_cons, hq]
    · have hq2 : q.isExpired t.time = false := by simpa using hq
      obtain ⟨e1, v1, v2, v3, v4, v5, v6, v7⟩ := visitRequest_log cfg check terminated t q ps
      obtain ⟨e2, h1, h2, h3, h4, h5, h6⟩ := ih (visitRequest cfg check terminated t q ps)
      obtain ⟨_, _, _, hmono, _⟩ := visitRequest_spec cfg check terminated t q ps
      have hloop : (processLoop cfg check terminated t (q :: l) ps).2 =
          (processLoop cfg check terminated t l (visitRequest cfg check terminated t q ps)).2 := by
        simp [processLoop, hq]
      rw [hloop]
      refine ⟨e1 ++ e2, ?_, ?_, ?_, ?_, ?_, ?_⟩
      · rw [h1, v1, List.append_assoc]
      · intro e he
        rcases List.mem_append.mp he with he | he
        · obtain ⟨a, b, c, d, f⟩ := v2 e he
          exact ⟨q, List.mem_cons_self _ _, hq2, a, b, c, d, f⟩
        · obtain ⟨r, hr, a, b, c, d, f, g⟩ := h2 e he
          refine ⟨r, List.mem_cons_of_mem _ hr, a, b, c, d, ?_, g⟩
          cases hps : ps.sentEdges e.node with
          | false => rfl
          | true => rw [hmono e.node hps] at f; exact absurd f (by simp)
      · rw [List.map_append, List.nodup_append]
        refine ⟨?_, h3, ?_⟩
        · match e1, v3 with
          | [], _ => simp
          | [a], _ => simp
          | _ :: _ :: _, hlen => simp at hlen
        · intro n hn1 hn2
          obtain ⟨a, ha, rfl⟩ := List.mem_map.mp hn1
          obtain ⟨b, hb, hab⟩ := List.mem_map.mp hn2
          obtain ⟨_, _, _, _, _, _, hflag, _⟩ := h2 b hb
          rw [hab, v4 a ha] at hflag
          exact absurd hflag (by simp)
      · rw [h4, v5, List.filter_append, List.length_append, Nat.add_assoc]
      · rw [h5, v6, List.filter_append, List.length_append, Nat.add_assoc]
      · rw [h6, v7]; simp [List.filter_cons, hq]; omega

/-- What one private `process` call logs and counts. -/
theorem processPass_log (cfg : MapConfig S T) (m : MapState S T) (t : EdgeTuple S T)
    (indexFn : EdgeTuple S T → Nat) (check : EdgeRequest S T → EdgeTuple S T → Bool) :
    (processPass cfg m t indexFn check).2.sends = m.sends ++ passSends cfg m t indexFn check ∧
    (∀ e ∈ passSends cfg m t indexFn check, ∃ r ∈ m.ale (indexFn t),
      r.isExpired t.time = false ∧ check r t = true ∧ e.node = r.returnNode ∧ e.tuple = t ∧
      m.terminated = false) ∧
    ((passSends cfg m t indexFn check).map (fun e => e.node)).Nodup ∧
    (processPass cfg m t indexFn check).2.edgePushCounter =
      m.edgePushCounter + ((passSends cfg m t indexFn check).filter (fun e => e.sent)).length ∧
    (processPass cfg m t indexFn check).2.sendFailCounter =
      m.sendFailCounter + ((passSends cfg m t indexFn check).filter (fun e => !e.sent)).length ∧
    (processPass cfg m t indexFn check).2.edgeRequestsViewedCounter =
      m.edgeRequestsViewedCounter + (m.ale (indexFn t)).length ∧
    (processPass cfg m t indexFn check).1 =
      ((m.ale (indexFn t)).filter (fun q => !q.isExpired t.time)).length ∧
    (processPass cfg m t indexFn check).2.communicatorTerminations =
      m.communicatorTerminations := by
  obtain ⟨extra, h1, h2, h3, h4, h5, h6⟩ :=
    processLoop_log cfg check m.terminated t (m.ale (indexFn t))
      { sentEdges := fun _ => false, count := 0, edgePushCounter := m.edgePushCounter
        sendFailCounter := m.sendFailCounter, sends := m.sends }
  have hs : (processPass cfg m t indexFn check).2.sends = m.sends ++ extra := by
    simpa [processPass] using h1
  have hp : passSends cfg m t indexFn check = extra := by
    simp [passSends, hs]
  rw [hp]
  refine ⟨hs, ?_, h3, ?_, ?_, ?_, ?_, ?_⟩
  · intro e he
    obtain ⟨r, hr, a, b, c, d, _, g⟩ := h2 e he
    exact ⟨r, hr, a, b, c, d, g⟩
  · simpa [processPass] using h4
  · simpa [processPass] using h5
  · simp [processPass]
  · simpa [processPass] using h6
  · simp [processPass]

/-- The sends of the public `process` are the sends of its three passes. -/
theorem newSends_eq (cfg : MapConfig S T) (m : MapState S T) (t : EdgeTuple S T) :
    newSends cfg m t =
      passSends cfg m t (sourceIndexFunction cfg) (sourceCheckFunction cfg) ++
      passSends cfg (processPass cfg m t (sourceIndexFunction cfg) (sourceCheckFunction cfg)).2 t
        (targetIndexFunction cfg) (targetCheckFunction cfg) ++
      passSends cfg
        (processPass cfg
          (processPass cfg m t (sourceIndexFunction cfg) (sourceCheckFunction cfg)).2 t
          (targetIndexFunction cfg) (targetCheckFunction cfg)).2 t
        (sourceTargetIndexFunction cfg) (sourceTargetCheckFunction cfg) := by
  have h1 := (processPass_log cfg m t (sourceIndexFunction cfg) (sourceCheckFunction cfg)).1
  have h2 := (processPass_log cfg
    (processPass cfg m t (sourceIndexFunction cfg) (sourceCheckFunction cfg)).2 t
    (targetIndexFunction cfg) (targetCheckFunction cfg)).1
  have h3 := (processPass_log cfg
    (processPass cfg
      (processPass cfg m t (sourceIndexFunction cfg) (sourceCheckFunction cfg)).2 t
      (targetIndexFunction cfg) (targetCheckFunction cfg)).2 t
    (sourceTargetIndexFunction cfg) (sourceTargetCheckFunction cfg)).1
  have hp : (process cfg m t).2.sends = m.sends ++
      (passSends cfg m t (sourceIndexFunction cfg) (sourceCheckFunction cfg) ++
      passSends cfg (processPass cfg m t (sourceIndexFunction cfg) (sourceCheckFunction cfg)).2 t
        (targetIndexFunction cfg) (targetCheckFunction cfg) ++
      passSends cfg
        (processPass cfg
          (processPass cfg m t (sourceIndexFunction cfg) (sourceCheckFunction cfg)).2 t
          (targetIndexFunction cfg) (targetCheckFunction cfg)).2 t
        (sourceTargetIndexFunction cfg) (sourceTargetCheckFunction cfg)) := by
    simp only [process]
    rw [h3, h2, h1]
    simp [List.append_assoc]
  simp [newSends, hp]

theorem sentNodes_eq_newSends (cfg : MapConfig S T) (m : MapState S T) (t : EdgeTuple S T) :
    sentNodes cfg m t = (newSends cfg m t).map (fun e => e.node) := rfl

/-! ## `EdgeRequestMap`: natural partitions and duplicates -/

/-- C11 (as stated, refuted): with 4 nodes and 7 buckets, the stored request
binds source 5 and has return node 1; `process` of the tuple with source 5
and target 6 sends the tuple to node 1, which is the natural partition
`sourceHash(5) mod 4` of the tuple. -/
theorem process_sends_to_partition_counterexample :
    sentNodes (natConfig 4 7)
      { (MapState.init : MapState Nat Nat) with
        ale := Function.update MapState.init.ale 5 [EdgeRequest.mk 5 0 1 100] }
      (EdgeTuple.mk 0 5 6 50) = [1] ∧
    (natConfig 4 7).sourceHash (EdgeTuple.mk 0 5 6 50 : EdgeTuple Nat Nat).source %
      (natConfig 4 7).numNodes = 1 := by
  constructor <;> decide

/-- C11 (amended): every send of `process(t)` is made by one of its three
passes and passes the partition test of that pass: a send of the source pass
goes to a node other than `targetHash(target(t)) mod numNodes`, a send of the
target pass to a node other than `sourceHash(source(t)) mod numNodes`, and a
send of the source-target pass to a node other than both. -/
theorem process_partition_guard (cfg : MapConfig S T) (m : MapState S T) (t : EdgeTuple S T) :
    newSends cfg m t =
      passSends cfg m t (sourceIndexFunction cfg) (sourceCheckFunction cfg) ++
      passSends cfg (processPass cfg m t (sourceIndexFunction cfg) (sourceCheckFunction cfg)).2 t
        (targetIndexFunction cfg) (targetCheckFunction cfg) ++
      passSends cfg
        (processPass cfg
          (processPass cfg m t (sourceIndexFunction cfg) (sourceCheckFunction cfg)).2 t
          (targetIndexFunction cfg) (targetCheckFunction cfg)).2 t
        (sourceTargetIndexFunction cfg) (sourceTargetCheckFunction cfg) ∧
    (∀ e ∈ passSends cfg m t (sourceIndexFunction cfg) (sourceCheckFunction cfg),
      e.node ≠ cfg.targetHash t.target % cfg.numNodes) ∧
    (∀ e ∈ passSends cfg
        (processPass cfg m t (sourceIndexFunction cfg) (sourceCheckFunction cfg)).2 t
        (targetIndexFunction cfg) (targetCheckFunction cfg),
      e.node ≠ cfg.sourceHash t.source % cfg.numNodes) ∧
    (∀ e ∈ passSends cfg
        (processPass cfg
          (processPass cfg m t (sourceIndexFunction cfg) (sourceCheckFunction cfg)).2 t
          (targetIndexFunction cfg) (targetCheckFunction cfg)).2 t
        (sourceTargetIndexFunction cfg) (sourceTargetCheckFunction cfg),
      e.node ≠ cfg.sourceHash t.source % cfg.numNodes ∧
      e.node ≠ cfg.targetHash t.target % cfg.numNodes) := by
  refine ⟨newSends_eq cfg m t, ?_, ?_, ?_⟩
  · intro e he
    obtain ⟨r, _, _, hc, hn, _⟩ :=
      (processPass_log cfg m t (sourceIndexFunction cfg) (sourceCheckFunction cfg)).2.1 e he
    rw [hn]
    intro heq
    simp [sourceCheckFunction, heq] at hc
  · intro e he
    obtain ⟨r, _, _, hc, hn, _⟩ := (processPass_log cfg _ t (targetIndexFunction cfg)
      (targetCheckFunction cfg)).2.1 e he
    rw [hn]
    intro heq
    simp [targetCheckFunction, heq] at hc
  · intro e he
    obtain ⟨r, _, _, hc, hn, _⟩ := (processPass_log cfg _ t (sourceTargetIndexFunction cfg)
      (sourceTargetCheckFunction cfg)).2.1 e he
    rw [hn]
    constructor
    · intro heq
      simp [sourceTargetCheckFunction, heq] at hc
    · intro heq
      simp [sourceTargetCheckFunction, heq] at hc

/-- C12 (the code at the failing input): with 4 nodes and 7 buckets, the map
has stored for node 3 a request for source 5 and a request for target 9; one
`process` of the tuple with source 5 and target 9, which matches both, sends
the tuple to node 3 twice, once in the source pass and once in the target
pass, each pass starting from a fresh `sentEdges`. -/
theorem process_sends_twice_to_one_node :
    sentNodes (natConfig 4 7)
      (runCalls (natConfig 4 7) MapState.init
        [MapCall.addRequest (EdgeRequest.mk 5 0 3 100),
         MapCall.addRequest (EdgeRequest.mk 0 9 3 100)])
      (EdgeTuple.mk 0 5 9 50) = [3, 3] ∧
    matchesRequest (natConfig 4 7) (EdgeRequest.mk 5 0 3 100) (EdgeTuple.mk 0 5 9 50) = true ∧
    matchesRequest (natConfig 4 7) (EdgeRequest.mk 0 9 3 100) (EdgeTuple.mk 0 5 9 50) = true := by
  refine ⟨by decide, by decide, by decide⟩

/-! ## `EdgeRequestMap`: the exception of `addRequest`, the counters -/

theorem requestIndex_eq_none_iff (cfg : MapConfig S T) (r : EdgeRequest S T) :
    requestIndex cfg r = none ↔
      (cfg.isNullSource r.source = true ∧ cfg.isNullTarget r.target = true) := by
  unfold requestIndex
  cases hs : cfg.isNullSource r.source <;> cases ht : cfg.isNullTarget r.target <;>
    simp [hs, ht]

theorem afterAddRequest_fields (cfg : MapConfig S T) (m : MapState S T) (r : EdgeRequest S T) :
    (afterAddRequest cfg m r).edgePushCounter = m.edgePushCounter ∧
    (afterAddRequest cfg m r).sendFailCounter = m.sendFailCounter ∧
    (afterAddRequest cfg m r).edgeRequestsViewedCounter = m.edgeRequestsViewedCounter ∧
    (afterAddRequest cfg m r).terminated = m.terminated ∧
    (afterAddRequest cfg m r).sends = m.sends ∧
    (afterAddRequest cfg m r).communicatorTerminations = m.communicatorTerminations := by
  unfold afterAddRequest addRequest
  cases requestIndex cfg r <;> simp

/-- C13: `addRequest(r)` throws `EdgeRequestMapException` exactly when both
the source and the target of `r` are null, and then every bucket of the
table is as it was before the call. -/
theorem addRequest_throws_iff_unbound (cfg : MapConfig S T) (m : MapState S T)
    (r : EdgeRequest S T) :
    (addRequest cfg m r = AddResult.edgeRequestMapException ↔
      (cfg.isNullSource r.source = true ∧ cfg.isNullTarget r.target = true)) ∧
    (addRequest cfg m r = AddResult.edgeRequestMapException →
      ∀ j, (afterAddRequest cfg m r).ale j = m.ale j) := by
  constructor
  · rw [← requestIndex_eq_none_iff]
    unfold addRequest
    cases requestIndex cfg r <;> simp
  · intro h j
    unfold afterAddRequest
    rw [h]

theorem addRequest_throws_iff_unbound_witness :
    addRequest (natConfig 4 7) MapState.init (EdgeRequest.mk 0 0 3 100) =
      AddResult.edgeRequestMapException ∧
    (afterAddRequest (natConfig 4 7) MapState.init (EdgeRequest.mk 0 0 3 100)).ale 0 =
      (MapState.init : MapState Nat Nat).ale 0 :=
  ⟨(addRequest_throws_iff_unbound (natConfig 4 7) MapState.init (EdgeRequest.mk 0 0 3 100)).1.mpr
      (by decide),
    (addRequest_throws_iff_unbound (natConfig 4 7) MapState.init (EdgeRequest.mk 0 0 3 100)).2
      ((addRequest_throws_iff_unbound (natConfig 4 7) MapState.init
        (EdgeRequest.mk 0 0 3 100)).1.mpr (by decide)) 0⟩

/-- What the public `process` does to the three counters. -/
theorem process_counters (cfg : MapConfig S T) (m : MapState S T) (t : EdgeTuple S T) :
    (process cfg m t).2.edgePushCounter =
      m.edgePushCounter + ((newSends cfg m t).filter (fun e => e.sent)).length ∧
    (process cfg m t).2.sendFailCounter =
      m.sendFailCounter + ((newSends cfg m t).filter (fun e => !e.sent)).length ∧
    m.edgeRequestsViewedCounter ≤ (process cfg m t).2.edgeRequestsViewedCounter := by
  obtain ⟨_, _, _, a1, b1, c1, _⟩ :=
    processPass_log cfg m t (sourceIndexFunction cfg) (sourceCheckFunction cfg)
  obtain ⟨_, _, _, a2, b2, c2, _⟩ := processPass_log cfg
    (processPass cfg m t (sourceIndexFunction cfg) (sourceCheckFunction cfg)).2 t
    (targetIndexFunction cfg) (targetCheckFunction cfg)
  obtain ⟨_, _, _, a3, b3, c3, _⟩ := processPass_log cfg
    (processPass cfg
      (processPass cfg m t (sourceIndexFunction cfg) (sourceCheckFunction cfg)).2 t
      (targetIndexFunction cfg) (targetCheckFunction cfg)).2 t
    (sourceTargetIndexFunction cfg) (sourceTargetCheckFunction cfg)
  rw [newSends_eq]
  simp only [List.filter_append, List.length_append]
  refine ⟨?_, ?_, ?_⟩
  · simp only [process]
    rw [a3, a2, a1]; omega
  · simp only [process]
    rw [b3, b2, b1]; omega
  · simp only [process]
    rw [c3, c2, c1]; omega

theorem applyCall_counters_le (cfg : MapConfig S T) (m : MapState S T) (c : MapCall S T) :
    m.edgePushCounter ≤ (applyCall cfg m c).edgePushCounter ∧
    m.sendFailCounter ≤ (applyCall cfg m c).sendFailCounter ∧
    m.edgeRequestsViewedCounter ≤ (applyCall cfg m c).edgeRequestsViewedCounter := by
  cases c with
  | addRequest r =>
    obtain ⟨a, b, c, _⟩ := afterAddRequest_fields cfg m r
    simp only [applyCall]
    rw [a, b, c]
    exact ⟨le_refl _, le_refl _, le_refl _⟩
  | process t =>
    obtain ⟨a, b, c⟩ := process_counters cfg m t
    simp only [applyCall]
    rw [a, b]
    exact ⟨Nat.le_add_right _ _, Nat.le_add_right _ _, c⟩
  | terminate =>
    simp only [applyCall, terminate]
    cases m.terminated <;> simp

/-- C14: over a call of `process` the push counter grows by the number of
send attempts of the call that succeeded and the send-fail counter by the
number that failed, each attempt being counted in exactly one of the two;
and no counter decreases over a sequence of `addRequest`, `process` and
`terminate` calls. -/
theorem counters_count_sends_and_grow (cfg : MapConfig S T) :
    (∀ (m : MapState S T) (t : EdgeTuple S T),
      (process cfg m t).2.edgePushCounter =
        m.edgePushCounter + ((newSends cfg m t).filter (fun e => e.sent)).length ∧
      (process cfg m t).2.sendFailCounter =
        m.sendFailCounter + ((newSends cfg m t).filter (fun e => !e.sent)).length ∧
      ((newSends cfg m t).filter (fun e => e.sent)).length +
        ((newSends cfg m t).filter (fun e => !e.sent)).length = (newSends cfg m t).length) ∧
    (∀ (calls : List (MapCall S T)) (m : MapState S T),
      m.edgePushCounter ≤ (runCalls cfg m calls).edgePushCounter ∧
      m.sendFailCounter ≤ (runCalls cfg m calls).sendFailCounter ∧
      m.edgeRequestsViewedCounter ≤ (runCalls cfg m calls).edgeRequestsViewedCounter) := by
  constructor
  · intro m t
    obtain ⟨a, b, _⟩ := process_counters cfg m t
    refine ⟨a, b, ?_⟩
    induction newSends cfg m t with
    | nil => simp
    | cons e l ih =>
      cases he : e.sent <;> simp [List.filter_cons, he] <;> omega
  · intro calls
    induction calls with
    | nil => intro m; simp [runCalls]
    | cons c calls ih =>
      intro m
      obtain ⟨a, b, d⟩ := applyCall_counters_le cfg m c
      obtain ⟨a2, b2, d2⟩ := ih (applyCall cfg m c)
      simp only [runCalls, List.foldl_cons] at a2 b2 d2 ⊢
      exact ⟨le_trans a a2, le_trans b b2, le_trans d d2⟩

end EdgeRequestMapProperties

/-! ## `Identity` -/

/-- C15: `Identity::consume(t)` returns true; afterwards the feature map holds
`SingleFeature(value of valueField in t)` under the key generated from `t`
and the identifier of the operator, whatever was stored there before; the
entries under every other pair are as they were; and the subscribers have
been notified with the id at position 0 of `t` and that value. -/
theorem identity_consume_stores_value {I V : Type} (cfg : IdentityConfig I V)
    (st : IdentityState V) (input : I) :
    (Identity.consume cfg st input).1 = true ∧
    (Identity.consume cfg st input).2.featureMap (cfg.generateKey input) cfg.identifier =
      some (Feature.SingleFeature (cfg.valueField input)) ∧
    (∀ k i, ¬ (k = cfg.generateKey input ∧ i = cfg.identifier) →
      (Identity.consume cfg st input).2.featureMap k i = st.featureMap k i) ∧
    (Identity.consume cfg st input).2.notified =
      st.notified ++ [(cfg.idField input, cfg.valueField input)] := by
  refine ⟨rfl, ?_, ?_, rfl⟩
  · simp [Identity.consume, FeatureMap.updateInsert]
  · intro k i hki
    simp only [Identity.consume, FeatureMap.updateInsert]
    rw [if_neg hki]

theorem identity_consume_stores_value_witness :
    (Identity.consume
      (IdentityConfig.mk (fun n : Netflow => n.destIp) (fun n => n.samGeneratedId)
        (fun n => n.samGeneratedId) 0 "label")
      (IdentityState.mk 0 (fun _ _ => none) []) sampleNetflow).2.featureMap "other" "label" =
    (IdentityState.mk 0 (fun _ _ => none) [] : IdentityState Nat).featureMap "other" "label" :=
  (identity_consume_stores_value
    (IdentityConfig.mk (fun n : Netflow => n.destIp) (fun n => n.samGeneratedId)
      (fun n => n.samGeneratedId) 0 "label")
    (IdentityState.mk 0 (fun _ _ => none) []) sampleNetflow).2.2.1 "other" "label" (by decide)

/-! ## The line readers -/

theorem feedConsumers_log {C A : Type} (outcome : Nat → Bool) (item : A) (consumers : List C) :
    ∀ log : List (ConsumeCall C A),
      (feedConsumers outcome item consumers log).map ConsumeCall.target =
        log.map ConsumeCall.target ++ consumers.map (fun c => (c, item)) ∧
      (log.map (fun c => c.returned) = (List.range log.length).map outcome →
        (feedConsumers outcome item consumers log).map (fun c => c.returned) =
          (List.range (feedConsumers outcome item consumers log).length).map outcome) := by
  induction consumers with
  | nil => intro log; simp [feedConsumers]
  | cons c cs ih =>
    intro log
    obtain ⟨h1, h2⟩ := ih (log ++ [ConsumeCall.mk c item (outcome log.length)])
    simp only [feedConsumers]
    refine ⟨?_, ?_⟩
    · rw [h1]; simp [ConsumeCall.target]
    · intro hlog
      apply h2
      simp [List.range_succ, hlog]

theorem readFile_receiveLoop_log {C : Type} (outcome : Nat → Bool) (consumers : List C)
    (lines : List String) :
    ∀ log : List (ConsumeCall C String),
      (ReadFile.receiveLoop outcome consumers lines log).map ConsumeCall.target =
        log.map ConsumeCall.target ++
          lines.flatMap (fun l => consumers.map (fun c => (c, l))) ∧
      (log.map (fun c => c.returned) = (List.range log.length).map outcome →
        (ReadFile.receiveLoop outcome consumers lines log).map (fun c => c.returned) =
          (List.range (ReadFile.receiveLoop outcome consumers lines log).length).map outcome) := by
  induction lines with
  | nil => intro log; simp [ReadFile.receiveLoop]
  | cons l ls ih =>
    intro log
    obtain ⟨f1, f2⟩ := feedConsumers_log outcome l consumers log
    obtain ⟨h1, h2⟩ := ih (feedConsumers outcome l consumers log)
    simp only [ReadFile.receiveLoop]
    refine ⟨?_, fun hlog => h2 (f2 hlog)⟩
    rw [h1, f1]
    simp [List.flatMap_cons]

/-- The lines of a file up to the first one `makeNetflow` rejects. -/
theorem readCSV_receiveLoop_log {C : Type} (makeNetflow : String → Option Netflow)
    (outcome : Nat → Bool) (consumers : List C) (lines : List String) :
    ∀ log : List (ConsumeCall C Netflow),
      ((ReadCSV.receiveLoop makeNetflow outcome consumers lines log).calls.map
          ConsumeCall.target =
        log.map ConsumeCall.target ++
          ((lines.takeWhile (fun l => (makeNetflow l).isSome)).filterMap makeNetflow).flatMap
            (fun n => consumers.map (fun c => (c, n)))) ∧
      (ReadCSV.receiveLoop makeNetflow outcome consumers lines log).returned =
        lines.all (fun l => (makeNetflow l).isSome) ∧
      (log.map (fun c => c.returned) = (List.range log.length).map outcome →
        (ReadCSV.receiveLoop makeNetflow outcome consumers lines log).calls.map
            (fun c => c.returned) =
          (List.range (ReadCSV.receiveLoop makeNetflow outcome consumers lines log).calls.length).map
            outcome) := by
  induction lines with
  | nil => intro log; simp [ReadCSV.receiveLoop]
  | cons l ls ih =>
    intro log
    cases hm : makeNetflow l with
    | none => simp [ReadCSV.receiveLoop, hm, List.takeWhile_cons]
    | some n =>
      obtain ⟨f1, f2⟩ := feedConsumers_log outcome n consumers log
      obtain ⟨h1, h2, h3⟩ := ih (feedConsumers outcome n consumers log)
      simp only [ReadCSV.receiveLoop, hm]
      refine ⟨?_, ?_, fun hlog => h3 (f2 hlog)⟩
      · rw [h1, f1]
        simp [List.takeWhile_cons, hm, List.filterMap_cons, List.flatMap_cons]
      · rw [h2]; simp [hm]

theorem length_flatMap_product {A B : Type} (consumers : List B) (items : List A) :
    (items.flatMap (fun l => consumers.map (fun c => (c, l)))).length =
      items.length * consumers.length := by
  induction items with
  | nil => simp
  | cons a l ih => simp [List.flatMap_cons, ih, Nat.succ_mul, Nat.add_comm]

theorem takeWhile_all {A : Type} (p : A → Bool) (l : List A) (h : ∀ a ∈ l, p a = true) :
    l.takeWhile p = l := by
  induction l with
  | nil => rfl
  | cons a l ih =>
    rw [List.takeWhile_cons, h a (List.mem_cons_self _ _)]
    simp [ih (fun x hx => h x (List.mem_cons_of_mem _ hx))]

theorem length_filterMap_all {A B : Type} (f : A → Option B) (l : List A)
    (h : ∀ a ∈ l, (f a).isSome = true) : (l.filterMap f).length = l.length := by
  induction l with
  | nil => rfl
  | cons a l ih =>
    have ha := h a (List.mem_cons_self _ _)
    obtain ⟨b, hb⟩ := Option.isSome_iff_exists.mp ha
    simp [List.filterMap_cons, hb, ih (fun x hx => h x (List.mem_cons_of_mem _ hx))]

theorem takeWhile_append_stop {A : Type} (p : A → Bool) (before after : List A) (bad : A)
    (hbefore : ∀ a ∈ before, p a = true) (hbad : p bad = false) :
    (before ++ bad :: after).takeWhile p = before := by
  induction before with
  | nil => simp [List.takeWhile_cons, hbad]
  | cons a l ih =>
    have ha := hbefore a (List.mem_cons_self _ _)
    rw [List.cons_append, List.takeWhile_cons, ha]
    simp [ih (fun x hx => hbefore x (List.mem_cons_of_mem _ hx))]

/-- C16 (as stated, refuted): the file has three lines, the second of which
`makeNetflow` rejects, and there are two consumers: `ReadCSV::receive` makes
2 `consume` calls, those for the first line, not 3 * 2. -/
theorem readCSV_call_count_counterexample :
    (ReadCSV.receive taggedMakeNetflow (fun _ => true) [0, 1]
      (some ["good", "bad", "fine"])).calls.map ConsumeCall.target =
      [(0, { sampleNetflow with sourceIp := "good" }),
       (1, { sampleNetflow with sourceIp := "good" })] ∧
    (ReadCSV.receive taggedMakeNetflow (fun _ => true) [0, 1]
      (some ["good", "bad", "fine"])).calls.length ≠
      (IfStream.getlines (some ["good", "bad", "fine"])).length * [0, 1].length := by
  refine ⟨by decide, by decide⟩

/-- C16 (amended): for a file with lines `l1..ln` and consumers `c1..cm` in
registration order, `ReadFile::receive` calls `consume` `n * m` times, in the
order `(l1,c1), (l1,c2), ..., (l1,cm), (l2,c1), ..., (ln,cm)`; and so does
`ReadCSV::receive` with the tuples parsed from the lines, one per line,
provided `makeNetflow` succeeds on every line of the file. -/
theorem receive_delivers_every_line {C : Type} (outcome : Nat → Bool) (consumers : List C)
    (file : IfStream) (makeNetflow : String → Option Netflow) :
    (ReadFile.receive outcome consumers file).map ConsumeCall.target =
      file.getlines.flatMap (fun l => consumers.map (fun c => (c, l))) ∧
    (ReadFile.receive outcome consumers file).length =
      file.getlines.length * consumers.length ∧
    ((∀ l ∈ file.getlines, (makeNetflow l).isSome = true) →
      (ReadCSV.receive makeNetflow outcome consumers file).returned = true ∧
      (ReadCSV.receive makeNetflow outcome consumers file).calls.map ConsumeCall.target =
        (file.getlines.filterMap makeNetflow).flatMap
          (fun n => consumers.map (fun c => (c, n))) ∧
      (file.getlines.filterMap makeNetflow).length = file.getlines.length ∧
      (ReadCSV.receive makeNetflow outcome consumers file).calls.length =
        file.getlines.length * consumers.length) := by
  have hf := (readFile_receiveLoop_log outcome consumers file.getlines []).1
  have hfile : (ReadFile.receive outcome consumers file).map ConsumeCall.target =
      file.getlines.flatMap (fun l => consumers.map (fun c => (c, l))) := by
    simpa [ReadFile.receive] using hf
  refine ⟨hfile, ?_, ?_⟩
  · rw [← length_flatMap_product consumers file.getlines, ← hfile, List.length_map]
  · intro hall
    obtain ⟨h1, h2, _⟩ := readCSV_receiveLoop_log makeNetflow outcome consumers file.getlines []
    rw [takeWhile_all _ _ hall] at h1
    have hlen := length_filterMap_all makeNetflow file.getlines hall
    have hcalls : (ReadCSV.receive makeNetflow outcome consumers file).calls.map
        ConsumeCall.target = (file.getlines.filterMap makeNetflow).flatMap
          (fun n => consumers.map (fun c => (c, n))) := by
      simpa [ReadCSV.receive] using h1
    refine ⟨?_, hcalls, hlen, ?_⟩
    · simp only [ReadCSV.receive]
      rw [h2, List.all_eq_true]
      exact hall
    · rw [← hlen, ← length_flatMap_product consumers (file.getlines.filterMap makeNetflow),
        ← hcalls, List.length_map]

theorem receive_delivers_every_line_witness :
    (ReadCSV.receive sampleMakeNetflow (fun _ => true) [0, 1] (some ["a", "b"])).returned = true ∧
    (ReadCSV.receive sampleMakeNetflow (fun _ => true) [0, 1] (some ["a", "b"])).calls.length =
      (IfStream.getlines (some ["a", "b"])).length * [0, 1].length :=
  ⟨((receive_delivers_every_line (fun _ => true) [0, 1] (some ["a", "b"]) sampleMakeNetflow).2.2
      (by decide)).1,
    ((receive_delivers_every_line (fun _ => true) [0, 1] (some ["a", "b"]) sampleMakeNetflow).2.2
      (by decide)).2.2.2⟩

/-- C18 (as stated, refuted): the file has the malformed line `bad` followed
by a line that parses; `ReadCSV::receive` is left by the exception of
`makeNetflow` on the first line and makes no `consume` call at all, so the
later well-formed line reaches no consumer. -/
theorem readCSV_skips_malformed_counterexample :
    sampleMakeNetflow "bad" = none ∧
    sampleMakeNetflow "good" = some sampleNetflow ∧
    (ReadCSV.receive sampleMakeNetflow (fun _ => true) [0, 1] (some ["bad", "good"])).returned =
      false ∧
    (ReadCSV.receive sampleMakeNetflow (fun _ => true) [0, 1] (some ["bad", "good"])).calls =
      [] := by
  refine ⟨by decide, by decide, by decide, by decide⟩

/-- C18 (amended): in `ReadCSV::receive` a malformed line, one for which
`makeNetflow` throws, ends the loop: `receive` is left by the exception, the
malformed line and every line after it reach no consumer, and the calls made
are those for the lines before it, each delivered to every consumer. -/
theorem readCSV_stops_at_malformed {C : Type} (makeNetflow : String → Option Netflow)
    (outcome : Nat → Bool) (consumers : List C) (before after : List String) (bad : String)
    (hbefore : ∀ l ∈ before, (makeNetflow l).isSome = true) (hbad : makeNetflow bad = none) :
    (ReadCSV.receive makeNetflow outcome consumers (some (before ++ bad :: after))).returned =
      false ∧
    (ReadCSV.receive makeNetflow outcome consumers
        (some (before ++ bad :: after))).calls.map ConsumeCall.target =
      (before.filterMap makeNetflow).flatMap (fun n => consumers.map (fun c => (c, n))) ∧
    (before.filterMap makeNetflow).length = before.length := by
  obtain ⟨h1, h2, _⟩ :=
    readCSV_receiveLoop_log makeNetflow outcome consumers (before ++ bad :: after) []
  have htw := takeWhile_append_stop (fun l => (makeNetflow l).isSome) before after bad hbefore
    (by simp [hbad])
  rw [htw] at h1
  refine ⟨?_, ?_, length_filterMap_all makeNetflow before hbefore⟩
  · simp only [ReadCSV.receive, IfStream.getlines, Option.getD_some]
    rw [h2]
    simp [hbad]
  · simp only [ReadCSV.receive, IfStream.getlines, Option.getD_some]
    rw [h1]
    simp

theorem readCSV_stops_at_malformed_witness :
    (ReadCSV.receive sampleMakeNetflow (fun _ => true) [0, 1]
        (some (["a"] ++ "bad" :: ["good"]))).calls.map ConsumeCall.target =
      (["a"].filterMap sampleMakeNetflow).flatMap (fun n => [0, 1].map (fun c => (c, n))) :=
  (readCSV_stops_at_malformed sampleMakeNetflow (fun _ => true) [0, 1] ["a"] ["good"] "bad"
    (by decide) (by decide)).2.1

/-- C19 (the code at the failing input): no file can be opened, yet `connect`
of `ReadCSV` and of `ReadFile` returns true, and `main` of `ServerQuery`,
started with a learn file, ends with exit code 0, not -1; nothing is
ingested. -/
theorem connect_reports_success_on_missing_file :
    ReadCSV.connect emptyFileSystem "missing.csv" = (true, none) ∧
    ReadFile.connect emptyFileSystem "missing.csv" = (true, none) ∧
    ServerQuery.main emptyFileSystem false "missing.csv" true = (0, false) ∧
    (ReadCSV.receive sampleMakeNetflow (fun _ => true) [0]
      (ReadCSV.connect emptyFileSystem "missing.csv").2).calls = [] ∧
    ReadFile.receive (fun _ => true) [0] (ReadFile.connect emptyFileSystem "missing.csv").2 =
      [] := by
  refine ⟨rfl, rfl, by decide, by decide, by decide⟩

/-! ## The pull task and termination -/

section EdgeRequestMapFrame
variable {S T : Type}

theorem processPass_ale (cfg : MapConfig S T) (m : MapState S T) (t : EdgeTuple S T)
    (indexFn : EdgeTuple S T → Nat) (check : EdgeRequest S T → EdgeTuple S T → Bool) (j : Nat) :
    (processPass cfg m t indexFn check).2.ale j =
      if j = indexFn t then (m.ale j).filter (fun q => !q.isExpired t.time) else m.ale j := by
  rw [(processPass_spec cfg m t indexFn check).2.1]
  by_cases hj : j = indexFn t
  · subst hj; simp
  · simp [Function.update, hj]

theorem processPass_filter (cfg : MapConfig S T) (m : MapState S T) (t : EdgeTuple S T)
    (indexFn : EdgeTuple S T → Nat) (check : EdgeRequest S T → EdgeTuple S T → Bool) (j : Nat) :
    ((processPass cfg m t indexFn check).2.ale j).filter (fun q => !q.isExpired t.time) =
      (m.ale j).filter (fun q => !q.isExpired t.time) := by
  rw [processPass_ale]
  by_cases hj : j = indexFn t
  · simp [hj]
  · simp [hj]

/-- The table after `process(t)`: the three buckets indexed by `t` have lost
their expired requests, every other bucket is as it was. -/
theorem process_ale (cfg : MapConfig S T) (m : MapState S T) (t : EdgeTuple S T) (j : Nat) :
    (process cfg m t).2.ale j =
      if j = sourceIndexFunction cfg t ∨ j = targetIndexFunction cfg t ∨
          j = sourceTargetIndexFunction cfg t
      then (m.ale j).filter (fun q => !q.isExpired t.time) else m.ale j := by
  have h3 := processPass_ale cfg (afterTargetPass cfg m t) t (sourceTargetIndexFunction cfg)
    (sourceTargetCheckFunction cfg) j
  have h2 := processPass_ale cfg (afterSourcePass cfg m t) t (targetIndexFunction cfg)
    (targetCheckFunction cfg) j
  have h1 := processPass_ale cfg m t (sourceIndexFunction cfg) (sourceCheckFunction cfg) j
  have hp : (process cfg m t).2.ale j =
      (processPass cfg (afterTargetPass cfg m t) t (sourceTargetIndexFunction cfg)
        (sourceTargetCheckFunction cfg)).2.ale j := rfl
  have e2 : (afterTargetPass cfg m t).ale j =
      (processPass cfg (afterSourcePass cfg m t) t (targetIndexFunction cfg)
        (targetCheckFunction cfg)).2.ale j := rfl
  have e1 : (afterSourcePass cfg m t).ale j =
      (processPass cfg m t (sourceIndexFunction cfg) (sourceCheckFunction cfg)).2.ale j := rfl
  rw [hp, h3, e2, h2, e1, h1]
  split_ifs <;> first | rfl | (exfalso; tauto) | simp [List.filter_filter]

/-- The value returned by `process(t)`, pass by pass. -/
theorem process_count (cfg : MapConfig S T) (m : MapState S T) (t : EdgeTuple S T) :
    (process cfg m t).1 =
      ((m.ale (sourceIndexFunction cfg t)).filter (fun q => !q.isExpired t.time)).length +
      (((afterSourcePass cfg m t).ale (targetIndexFunction cfg t)).filter
        (fun q => !q.isExpired t.time)).length +
      (((afterTargetPass cfg m t).ale (sourceTargetIndexFunction cfg t)).filter
        (fun q => !q.isExpired t.time)).length := by
  obtain ⟨_, _, _, _, _, _, c1, _⟩ :=
    processPass_log cfg m t (sourceIndexFunction cfg) (sourceCheckFunction cfg)
  obtain ⟨_, _, _, _, _, _, c2, _⟩ := processPass_log cfg (afterSourcePass cfg m t) t
    (targetIndexFunction cfg) (targetCheckFunction cfg)
  obtain ⟨_, _, _, _, _, _, c3, _⟩ := processPass_log cfg (afterTargetPass cfg m t) t
    (sourceTargetIndexFunction cfg) (sourceTargetCheckFunction cfg)
  have hp : (process cfg m t).1 =
      0 + (processPass cfg m t (sourceIndexFunction cfg) (sourceCheckFunction cfg)).1 +
      (processPass cfg (afterSourcePass cfg m t) t (targetIndexFunction cfg)
        (targetCheckFunction cfg)).1 +
      (processPass cfg (afterTargetPass cfg m t) t (sourceTargetIndexFunction cfg)
        (sourceTargetCheckFunction cfg)).1 := rfl
  rw [hp, c1, c2, c3, Nat.zero_add]

theorem process_count_initial (cfg : MapConfig S T) (m : MapState S T) (t : EdgeTuple S T) :
    (process cfg m t).1 =
      ((m.ale (sourceIndexFunction cfg t)).filter (fun q => !q.isExpired t.time)).length +
      ((m.ale (targetIndexFunction cfg t)).filter (fun q => !q.isExpired t.time)).length +
      ((m.ale (sourceTargetIndexFunction cfg t)).filter
        (fun q => !q.isExpired t.time)).length := by
  rw [process_count]
  have e2 : ((afterTargetPass cfg m t).ale (sourceTargetIndexFunction cfg t)).filter
      (fun q => !q.isExpired t.time) =
      (m.ale (sourceTargetIndexFunction cfg t)).filter (fun q => !q.isExpired t.time) := by
    unfold afterTargetPass afterSourcePass
    rw [processPass_filter, processPass_filter]
  have e1 : ((afterSourcePass cfg m t).ale (targetIndexFunction cfg t)).filter
      (fun q => !q.isExpired t.time) =
      (m.ale (targetIndexFunction cfg t)).filter (fun q => !q.isExpired t.time) := by
    unfold afterSourcePass
    rw [processPass_filter]
  rw [e1, e2]

/-- C22: `process(t)` returns the sum, over its source pass, target pass and
source-target pass, of the number of requests of the bucket of that pass
that are not expired at the time of `t`; evicted requests are not counted,
and a bucket that two passes reach is counted by each of them. -/
theorem process_returns_work_done (cfg : MapConfig S T) (m : MapState S T)
    (t : EdgeTuple S T) :
    (process cfg m t).1 =
      (processPass cfg m t (sourceIndexFunction cfg) (sourceCheckFunction cfg)).1 +
      (processPass cfg (afterSourcePass cfg m t) t (targetIndexFunction cfg)
        (targetCheckFunction cfg)).1 +
      (processPass cfg (afterTargetPass cfg m t) t (sourceTargetIndexFunction cfg)
        (sourceTargetCheckFunction cfg)).1 ∧
    (∀ (m2 : MapState S T) (indexFn : EdgeTuple S T → Nat)
        (check : EdgeRequest S T → EdgeTuple S T → Bool),
      (processPass cfg m2 t indexFn check).1 =
        ((m2.ale (indexFn t)).filter (fun q => !q.isExpired t.time)).length) ∧
    (process cfg m t).1 =
      ((m.ale (sourceIndexFunction cfg t)).filter (fun q => !q.isExpired t.time)).length +
      ((m.ale (targetIndexFunction cfg t)).filter (fun q => !q.isExpired t.time)).length +
      ((m.ale (sourceTargetIndexFunction cfg t)).filter
        (fun q => !q.isExpired t.time)).length := by
  refine ⟨?_, ?_, process_count_initial cfg m t⟩
  · have hp : (process cfg m t).1 =
        0 + (processPass cfg m t (sourceIndexFunction cfg) (sourceCheckFunction cfg)).1 +
        (processPass cfg (afterSourcePass cfg m t) t (targetIndexFunction cfg)
          (targetCheckFunction cfg)).1 +
        (processPass cfg (afterTargetPass cfg m t) t (sourceTargetIndexFunction cfg)
          (sourceTargetCheckFunction cfg)).1 := rfl
    rw [hp, Nat.zero_add]
  · intro m2 indexFn check
    exact (processPass_log cfg m2 t indexFn check).2.2.2.2.2.2.1

/-- C23: `process(t)` only removes expired requests. A bucket that is none of
the three buckets indexed by `t` is unchanged; a bucket that is one of them
keeps exactly its requests that are not expired at the time of `t`, as they
were and in their order; no request is added. -/
theorem process_only_removes_expired (cfg : MapConfig S T) (m : MapState S T)
    (t : EdgeTuple S T) (j : Nat) :
    (¬ (j = sourceIndexFunction cfg t ∨ j = targetIndexFunction cfg t ∨
        j = sourceTargetIndexFunction cfg t) → (process cfg m t).2.ale j = m.ale j) ∧
    ((j = sourceIndexFunction cfg t ∨ j = targetIndexFunction cfg t ∨
        j = sourceTargetIndexFunction cfg t) →
      (process cfg m t).2.ale j = (m.ale j).filter (fun q => !q.isExpired t.time)) ∧
    List.Sublist ((process cfg m t).2.ale j) (m.ale j) ∧
    (∀ q ∈ m.ale j, q.isExpired t.time = false → q ∈ (process cfg m t).2.ale j) := by
  have h := process_ale cfg m t j
  refine ⟨?_, ?_, ?_, ?_⟩
  · intro hn; rw [h, if_neg hn]
  · intro hv; rw [h, if_pos hv]
  · rw [h]
    split
    · exact List.filter_sublist _
    · exact List.Sublist.refl _
  · intro q hq hne
    rw [h]
    split
    · simp [List.mem_filter, hq, hne]
    · exact hq

theorem process_only_removes_expired_witness :
    (process (natConfig 4 7)
      { (MapState.init : MapState Nat Nat) with
        ale := Function.update MapState.init.ale 5
          [EdgeRequest.mk 5 0 3 10, EdgeRequest.mk 5 0 2 100] }
      (EdgeTuple.mk 0 5 6 50)).2.ale 5 =
    (({ (MapState.init : MapState Nat Nat) with
        ale := Function.update MapState.init.ale 5
          [EdgeRequest.mk 5 0 3 10, EdgeRequest.mk 5 0 2 100] } : MapState Nat Nat).ale 5).filter
      (fun q => !q.isExpired (EdgeTuple.mk 0 5 6 50 : EdgeTuple Nat Nat).time) :=
  (process_only_removes_expired (natConfig 4 7)
    { (MapState.init : MapState Nat Nat) with
      ale := Function.update MapState.init.ale 5
        [EdgeRequest.mk 5 0 3 10, EdgeRequest.mk 5 0 2 100] }
    (EdgeTuple.mk 0 5 6 50) 5).2.1 (Or.inl (by decide))

/-! ## `EdgeRequestMap`: termination -/

theorem passSends_of_terminated (cfg : MapConfig S T) (m : MapState S T) (t : EdgeTuple S T)
    (indexFn : EdgeTuple S T → Nat) (check : EdgeRequest S T → EdgeTuple S T → Bool)
    (h : m.terminated = true) : passSends cfg m t indexFn check = [] := by
  apply List.eq_nil_iff_forall_not_mem.mpr
  intro e he
  obtain ⟨_, _, _, _, _, _, hterm⟩ := (processPass_log cfg m t indexFn check).2.1 e he
  rw [h] at hterm
  exact absurd hterm (by simp)

theorem newSends_of_terminated (cfg : MapConfig S T) (m : MapState S T) (t : EdgeTuple S T)
    (h : m.terminated = true) : newSends cfg m t = [] := by
  have h1 : (afterSourcePass cfg m t).terminated = true := by
    unfold afterSourcePass
    rw [(processPass_spec cfg m t _ _).1, h]
  have h2 : (afterTargetPass cfg m t).terminated = true := by
    unfold afterTargetPass
    rw [(processPass_spec cfg _ t _ _).1, h1]
  rw [newSends_eq, passSends_of_terminated cfg m t _ _ h]
  have e1 := passSends_of_terminated cfg (afterSourcePass cfg m t) t (targetIndexFunction cfg)
    (targetCheckFunction cfg) h1
  have e2 := passSends_of_terminated cfg (afterTargetPass cfg m t) t
    (sourceTargetIndexFunction cfg) (sourceTargetCheckFunction cfg) h2
  unfold afterTargetPass afterSourcePass at e2
  unfold afterSourcePass at e1
  rw [e1, e2]
  rfl

theorem process_terminated (cfg : MapConfig S T) (m : MapState S T) (t : EdgeTuple S T) :
    (process cfg m t).2.terminated = m.terminated := by
  have hp : (process cfg m t).2.terminated =
      (processPass cfg (afterTargetPass cfg m t) t (sourceTargetIndexFunction cfg)
        (sourceTargetCheckFunction cfg)).2.terminated := rfl
  rw [hp, (processPass_spec cfg _ t _ _).1]
  unfold afterTargetPass
  rw [(processPass_spec cfg _ t _ _).1]
  unfold afterSourcePass
  rw [(processPass_spec cfg _ t _ _).1]

theorem applyCall_terminated (cfg : MapConfig S T) (m : MapState S T) (c : MapCall S T)
    (h : m.terminated = true) : (applyCall cfg m c).terminated = true := by
  cases c with
  | addRequest r =>
    simp only [applyCall]
    rw [(afterAddRequest_fields cfg m r).2.2.2.1, h]
  | process t =>
    simp only [applyCall]
    rw [process_terminated, h]
  | terminate => simp [applyCall, terminate]

theorem runCalls_terminated (cfg : MapConfig S T) (calls : List (MapCall S T)) :
    ∀ m : MapState S T, m.terminated = true → (runCalls cfg m calls).terminated = true := by
  induction calls with
  | nil => intro m h; exact h
  | cons c calls ih =>
    intro m h
    have := ih (applyCall cfg m c) (applyCall_terminated cfg m c h)
    simpa [runCalls] using this

/-- C24: once `terminate()` has been called, every later `process(t)`, after
whatever other calls, makes no send; it still leaves in the three buckets of
`t` exactly the requests that are not expired, and it returns the count it
returns on the same table when the map is not terminated. -/
theorem process_after_terminate (cfg : MapConfig S T) (m : MapState S T)
    (calls : List (MapCall S T)) (t : EdgeTuple S T) :
    (runCalls cfg (terminate m) calls).terminated = true ∧
    newSends cfg (runCalls cfg (terminate m) calls) t = [] ∧
    (process cfg (runCalls cfg (terminate m) calls) t).2.sends =
      (runCalls cfg (terminate m) calls).sends ∧
    (∀ j, (process cfg (runCalls cfg (terminate m) calls) t).2.ale j =
      (process cfg { runCalls cfg (terminate m) calls with terminated := false } t).2.ale j) ∧
    (process cfg (runCalls cfg (terminate m) calls) t).1 =
      (process cfg { runCalls cfg (terminate m) calls with terminated := false } t).1 := by
  have hterm : (runCalls cfg (terminate m) calls).terminated = true :=
    runCalls_terminated cfg calls (terminate m) (by simp [terminate])
  have hnew := newSends_of_terminated cfg _ t hterm
  refine ⟨hterm, hnew, ?_, ?_, ?_⟩
  · obtain ⟨e1, e2, e3, _, _, h3, _⟩ := process_sends cfg (runCalls cfg (terminate m) calls) t
    have hdrop : newSends cfg (runCalls cfg (terminate m) calls) t = e1 ++ e2 ++ e3 := by
      simp [newSends, h3, List.append_assoc]
    rw [h3]
    rw [hnew] at hdrop
    have h12 : e1 ++ e2 ++ e3 = [] := hdrop.symm
    rw [List.append_assoc, List.append_assoc] at h3 ⊢
    rw [List.append_assoc] at h12
    rw [h12, List.append_nil]
  · intro j
    rw [process_ale, process_ale]
  · rw [process_count_initial, process_count_initial]

/-- C25: `terminate()` is idempotent. From a map that is not terminated, any
number of `terminate()` calls, the call made by the destructor included,
invokes `terminate` of the edge communicator once, in the first call, and
leaves the flag set. -/
theorem terminate_idempotent (m : MapState S T) (n : Nat) (h : m.terminated = false) :
    (terminate m).communicatorTerminations = m.communicatorTerminations + 1 ∧
    (terminate^[n + 1] m).communicatorTerminations = m.communicatorTerminations + 1 ∧
    (terminate^[n + 1] m).terminated = true ∧
    (destructor (terminate^[n + 1] m)).communicatorTerminations =
      m.communicatorTerminations + 1 ∧
    (destructor (terminate^[n + 1] m)).terminated = true ∧
    (destructor m).communicatorTerminations = m.communicatorTerminations + 1 ∧
    terminate (terminate m) = terminate m := by
  have h1 : (terminate m).communicatorTerminations = m.communicatorTerminations + 1 := by
    simp [terminate, h]
  have hidem : ∀ x : MapState S T, terminate (terminate x) = terminate x := by
    intro x
    cases hx : x.terminated <;> simp [terminate, hx]
  have hiter : ∀ k : Nat, terminate^[k + 1] m = terminate m := by
    intro k
    induction k with
    | zero => rfl
    | succ k ih => rw [Function.iterate_succ_apply', ih, hidem]
  refine ⟨h1, ?_, ?_, ?_, ?_, ?_, hidem m⟩
  · rw [hiter, h1]
  · rw [hiter]; simp [terminate]
  · rw [hiter]; unfold destructor; rw [hidem, h1]
  · rw [hiter]; unfold destructor; rw [hidem]; simp [terminate]
  · unfold destructor; exact h1

theorem terminate_idempotent_witness :
    (terminate^[2 + 1] (MapState.init : MapState Nat Nat)).communicatorTerminations =
      (MapState.init : MapState Nat Nat).communicatorTerminations + 1 :=
  (terminate_idempotent (MapState.init : MapState Nat Nat) 2 rfl).2.1

/-! ## `EdgeRequestMap`: the requests-viewed counter -/

theorem length_filter_add_filter_not {A : Type} (p : A → Bool) (l : List A) :
    (l.filter (fun a => !p a)).length + (l.filter p).length = l.length := by
  induction l with
  | nil => rfl
  | cons a l ih =>
    cases h : p a <;> simp [List.filter_cons, h] <;> omega

theorem passEvicted_eq (cfg : MapConfig S T) (m : MapState S T) (t : EdgeTuple S T)
    (indexFn : EdgeTuple S T → Nat) (check : EdgeRequest S T → EdgeTuple S T → Bool) :
    passEvicted cfg m t indexFn check =
      ((m.ale (indexFn t)).filter (fun q => q.isExpired t.time)).length ∧
    (processPass cfg m t indexFn check).2.edgeRequestsViewedCounter =
      m.edgeRequestsViewedCounter + (processPass cfg m t indexFn check).1 +
        passEvicted cfg m t indexFn check := by
  obtain ⟨_, _, _, _, _, hv, hc, _⟩ := processPass_log cfg m t indexFn check
  have hlen := length_filter_add_filter_not (fun q : EdgeRequest S T => q.isExpired t.time)
    (m.ale (indexFn t))
  have he : passEvicted cfg m t indexFn check =
      ((m.ale (indexFn t)).filter (fun q => q.isExpired t.time)).length := by
    unfold passEvicted
    rw [processPass_ale, if_pos rfl]
    omega
  refine ⟨he, ?_⟩
  rw [hv, hc, he]
  omega

/-- C26: over a call of `process(t)` the requests-viewed counter grows by the
value `process(t)` returns plus the number of requests the call evicts: each
pass adds the size of its bucket, expired requests included, while it counts
for the return value only the ones that are not expired and erases the
others. -/
theorem viewed_counter_is_work_plus_evicted (cfg : MapConfig S T) (m : MapState S T)
    (t : EdgeTuple S T) :
    (process cfg m t).2.edgeRequestsViewedCounter =
      m.edgeRequestsViewedCounter + (process cfg m t).1 + evicted cfg m t ∧
    evicted cfg m t =
      ((m.ale (sourceIndexFunction cfg t)).filter (fun q => q.isExpired t.time)).length +
      (((afterSourcePass cfg m t).ale (targetIndexFunction cfg t)).filter
        (fun q => q.isExpired t.time)).length +
      (((afterTargetPass cfg m t).ale (sourceTargetIndexFunction cfg t)).filter
        (fun q => q.isExpired t.time)).length := by
  obtain ⟨e1, v1⟩ := passEvicted_eq cfg m t (sourceIndexFunction cfg) (sourceCheckFunction cfg)
  obtain ⟨e2, v2⟩ := passEvicted_eq cfg (afterSourcePass cfg m t) t (targetIndexFunction cfg)
    (targetCheckFunction cfg)
  obtain ⟨e3, v3⟩ := passEvicted_eq cfg (afterTargetPass cfg m t) t
    (sourceTargetIndexFunction cfg) (sourceTargetCheckFunction cfg)
  have hp1 : (process cfg m t).1 =
      0 + (processPass cfg m t (sourceIndexFunction cfg) (sourceCheckFunction cfg)).1 +
      (processPass cfg (afterSourcePass cfg m t) t (targetIndexFunction cfg)
        (targetCheckFunction cfg)).1 +
      (processPass cfg (afterTargetPass cfg m t) t (sourceTargetIndexFunction cfg)
        (sourceTargetCheckFunction cfg)).1 := rfl
  have hp2 : (process cfg m t).2.edgeRequestsViewedCounter =
      (processPass cfg (afterTargetPass cfg m t) t (sourceTargetIndexFunction cfg)
        (sourceTargetCheckFunction cfg)).2.edgeRequestsViewedCounter := rfl
  have ha2 : (afterTargetPass cfg m t).edgeRequestsViewedCounter =
      (processPass cfg (afterSourcePass cfg m t) t (targetIndexFunction cfg)
        (targetCheckFunction cfg)).2.edgeRequestsViewedCounter := rfl
  have ha1 : (afterSourcePass cfg m t).edgeRequestsViewedCounter =
      (processPass cfg m t (sourceIndexFunction cfg) (sourceCheckFunction cfg)).2.edgeRequestsViewedCounter :=
    rfl
  constructor
  · rw [hp2, v3, ha2, v2, ha1, v1, hp1]
    unfold evicted
    omega
  · unfold evicted
    rw [e1, e2, e3]

/-! ## Array indices -/

theorem sendsOf_nodes (cfg : ShuffleConfig) (n : Netflow) :
    ∀ r ∈ sendsOf cfg n, r.node = cfg.hash n.sourceIp % cfg.numNodes ∨
      r.node = cfg.hash n.destIp % cfg.numNodes := by
  intro r hr
  unfold sendsOf at hr
  cases h : cfg.toString n with
  | none =>
    rw [consume_pushed_none cfg _ n h] at hr
    simp [PushState.init] at hr
  | some s =>
    rw [consume_pushed cfg _ n s h] at hr
    simp only [PushState.init, List.nil_append, List.mem_cons, List.mem_singleton,
      List.not_mem_nil, or_false] at hr
    rcases hr with rfl | rfl
    · exact Or.inl rfl
    · exact Or.inr rfl

theorem sentEdgesIndices_lt (cfg : MapConfig S T)
    (check : EdgeRequest S T → EdgeTuple S T → Bool) (t : EdgeTuple S T)
    (l : List (EdgeRequest S T)) (h : ∀ q ∈ l, q.returnNode < cfg.numNodes) :
    ∀ n ∈ sentEdgesIndices check t l, n < cfg.numNodes := by
  intro n hn
  obtain ⟨q, hq, rfl⟩ := List.mem_map.mp hn
  exact h q (List.mem_filter.mp hq).1

/-- C27: with `tableCapacity > 0`, `numNodes > 0` and every stored request
having a return node below `numNodes`, the bucket index computed by
`addRequest` and those of the three passes of `process` are below
`tableCapacity`, and in each pass every index into `sentEdges` is below
`numNodes`, as is the node of every send; and in `ZeroMQPushPull::consume`
with `numNodes > 0` the socket index of every send is below `numNodes`. -/
theorem indices_in_range (cfg : MapConfig S T) (m : MapState S T) (t : EdgeTuple S T)
    (r : EdgeRequest S T) (scfg : ShuffleConfig) (n : Netflow)
    (hcap : 0 < cfg.tableCapacity) (_hnodes : 0 < cfg.numNodes)
    (hstored : ∀ j, ∀ q ∈ m.ale j, q.returnNode < cfg.numNodes)
    (hshuffle : 0 < scfg.numNodes) :
    (∀ index, requestIndex cfg r = some index → index < cfg.tableCapacity) ∧
    sourceIndexFunction cfg t < cfg.tableCapacity ∧
    targetIndexFunction cfg t < cfg.tableCapacity ∧
    sourceTargetIndexFunction cfg t < cfg.tableCapacity ∧
    (∀ k ∈ sentEdgesIndices (sourceCheckFunction cfg) t (m.ale (sourceIndexFunction cfg t)),
      k < cfg.numNodes) ∧
    (∀ k ∈ sentEdgesIndices (targetCheckFunction cfg) t
        ((afterSourcePass cfg m t).ale (targetIndexFunction cfg t)), k < cfg.numNodes) ∧
    (∀ k ∈ sentEdgesIndices (sourceTargetCheckFunction cfg) t
        ((afterTargetPass cfg m t).ale (sourceTargetIndexFunction cfg t)), k < cfg.numNodes) ∧
    (∀ e ∈ newSends cfg m t, e.node < cfg.numNodes) ∧
    (∀ j, ∀ q ∈ (process cfg m t).2.ale j, q.returnNode < cfg.numNodes) ∧
    (∀ p ∈ sendsOf scfg n, p.node < scfg.numNodes) := by
  have hs1 : ∀ j, ∀ q ∈ (afterSourcePass cfg m t).ale j, q.returnNode < cfg.numNodes :=
    fun j q hq => hstored j q (processPass_subset cfg m t _ _ j q hq)
  have hs2 : ∀ j, ∀ q ∈ (afterTargetPass cfg m t).ale j, q.returnNode < cfg.numNodes :=
    fun j q hq => hs1 j q (processPass_subset cfg (afterSourcePass cfg m t) t _ _ j q hq)
  refine ⟨?_, Nat.mod_lt _ hcap, Nat.mod_lt _ hcap, Nat.mod_lt _ hcap,
    sentEdgesIndices_lt cfg _ t _ (hstored _), sentEdgesIndices_lt cfg _ t _ (hs1 _),
    sentEdgesIndices_lt cfg _ t _ (hs2 _), ?_, ?_, ?_⟩
  · intro index hindex
    unfold requestIndex at hindex
    cases hs : cfg.isNullSource r.source <;> cases ht : cfg.isNullTarget r.target <;>
      simp [hs, ht] at hindex <;> rw [← hindex] <;> exact Nat.mod_lt _ hcap
  · intro e he
    rw [newSends_eq] at he
    rcases List.mem_append.mp he with he | he
    · rcases List.mem_append.mp he with he | he
      · obtain ⟨q, hq, _, _, hn, _⟩ := (processPass_log cfg m t _ _).2.1 e he
        rw [hn]; exact hstored _ q hq
      · obtain ⟨q, hq, _, _, hn, _⟩ := (processPass_log cfg _ t _ _).2.1 e he
        rw [hn]; exact hs1 _ q hq
    · obtain ⟨q, hq, _, _, hn, _⟩ := (processPass_log cfg _ t _ _).2.1 e he
      rw [hn]; exact hs2 _ q hq
  · intro j q hq
    rw [process_ale] at hq
    split at hq
    · exact hstored j q (List.mem_filter.mp hq).1
    · exact hstored j q hq
  · intro p hp
    rcases sendsOf_nodes scfg n p hp with h | h <;> rw [h] <;> exact Nat.mod_lt _ hshuffle

theorem indices_in_range_witness :
    sourceTargetIndexFunction (natConfig 4 7) (EdgeTuple.mk 0 5 6 50) < (natConfig 4 7).tableCapacity :=
  (indices_in_range (natConfig 4 7)
    { (MapState.init : MapState Nat Nat) with
      ale := Function.update MapState.init.ale 5 [EdgeRequest.mk 5 0 3 100] }
    (EdgeTuple.mk 0 5 6 50) (EdgeRequest.mk 5 8 3 100) (specConfig 2 0 String.length)
    sampleNetflow (by decide) (by decide)
    (by
      intro j q hq
      by_cases hj : j = 5
      · subst hj
        simp only [Function.update_same, List.mem_singleton] at hq
        rw [hq]; decide
      · simp [Function.update, hj, MapState.init] at hq)
    (by decide)).2.2.2.1


end EdgeRequestMapFrame

/-! ## The filter expression of `ServerQuery` -/

/-- C21 (the code at the failing input): the infix list built by
`createPipeline` is `[f1, +, f2, <, 0.9]` over the feature `top2`, but both
probes read index 0: on a feature with frequencies 1/2 and 3/10 the second
probe returns 1/2, not the second entry 3/10, so the expression compares
1/2 + 1/2 with 0.9 where the two highest frequencies sum to 4/5. -/
theorem createPipeline_second_probe_reads_first :
    createPipeline.identifier = "top2" ∧
    createPipeline.infixList =
      [ExpressionToken.FuncToken createPipeline.function1 "top2",
       ExpressionToken.AddOperator,
       ExpressionToken.FuncToken createPipeline.function2 "top2",
       ExpressionToken.LessThanOperator,
       ExpressionToken.NumberToken (9 / 10 : Rat)] ∧
    createPipeline.function1 (Feature.TopKFeature ["80", "443"] [(1 / 2 : Rat), 3 / 10]) =
      some (1 / 2) ∧
    createPipeline.function2 (Feature.TopKFeature ["80", "443"] [(1 / 2 : Rat), 3 / 10]) =
      some (1 / 2) ∧
    ([(1 / 2 : Rat), 3 / 10])[1]? = some (3 / 10) ∧
    createPipeline.function2 (Feature.TopKFeature ["80", "443"] [(1 / 2 : Rat), 3 / 10]) ≠
      ([(1 / 2 : Rat), 3 / 10])[1]? ∧
    ((createPipeline.function1 (Feature.TopKFeature ["80", "443"] [(1 / 2 : Rat), 3 / 10])).bind
      (fun x => (createPipeline.function2
        (Feature.TopKFeature ["80", "443"] [(1 / 2 : Rat), 3 / 10])).map (fun y => x + y))) =
      some 1 ∧
    ¬ ((1 : Rat) < 9 / 10) ∧ ((1 / 2 : Rat) + 3 / 10 < 9 / 10) := by
  refine ⟨rfl, rfl, rfl, rfl, rfl, ?_, ?_, by norm_num, by norm_num⟩
  · simp [createPipeline.function2, createPipeline.index2, frequencyAt]
    norm_num
  · simp [createPipeline.function1, createPipeline.function2, createPipeline.index1,
      createPipeline.index2, frequencyAt]
    norm_num

/-! ## The wire encoding -/

theorem takeWhile_ne_nul (l : List Char) (h : nul ∉ l) :
    l.takeWhile (fun c => c != nul) = l := by
  apply takeWhile_all
  intro a ha
  have : a ≠ nul := fun e => h (e ▸ ha)
  simpa using this

theorem decode_mkMessage (s : String) (h : nul ∉ s.data) : decodeMessage (mkMessage s) = s := by
  unfold decodeMessage mkMessage
  simp only [takeWhile_ne_nul s.data h]
  rw [takeWhile_append_stop (fun c => c != nul) s.data [] nul]
  · intro a ha
    have : a ≠ nul := fun e => h (e ▸ ha)
    simpa using this
  · simp

/-- C28: for a payload `s` without an embedded NUL, the message `consume`
builds has `|s| + 1` bytes, all of them written, the last one being NUL, and
the string the pull task builds from the buffer is `s`; every message sent
by `consume` is the message built from its payload. -/
theorem wire_encoding_round_trips (s : String) (hnul : nul ∉ s.data) :
    (mkMessage s).size = s.length + 1 ∧
    (mkMessage s).data.length = (mkMessage s).size ∧
    (mkMessage s).data.getLast? = some nul ∧
    decodeMessage (mkMessage s) = s ∧
    (∀ (cfg : ShuffleConfig) (n : Netflow) (s0 : String), cfg.toString n = some s0 →
      cfg.removeFirstElement s0 = s →
      ∀ r ∈ sendsOf cfg n, r.message = mkMessage s ∧ decodeMessage r.message = s) := by
  have hd := decode_mkMessage s hnul
  refine ⟨rfl, ?_, ?_, hd, ?_⟩
  · simp [mkMessage, takeWhile_ne_nul s.data hnul]
  · simp [mkMessage]
  · intro cfg n s0 h0 hs r hr
    have hpush := consume_pushed cfg PushState.init n s0 h0
    unfold sendsOf at hr
    rw [hpush, hs] at hr
    simp only [PushState.init, List.nil_append, List.mem_cons, List.mem_singleton,
      List.not_mem_nil, or_false] at hr
    rcases hr with rfl | rfl <;> exact ⟨rfl, hd⟩

theorem wire_encoding_round_trips_witness :
    decodeMessage (mkMessage "1.5,10.0.0.1") = "1.5,10.0.0.1" :=
  (wire_encoding_round_trips "1.5,10.0.0.1" (by decide)).2.2.2.1

/-! ## The socket addresses -/

theorem hostnames_length (numNodes : Nat) (namePrefix : String) :
    (ServerQuery.hostnames numNodes namePrefix).length = numNodes := by
  unfold ServerQuery.hostnames
  split
  · next h => simp [h]
  · simp

theorem ports_length (numNodes : Nat) (startingPort : Int) :
    (ServerQuery.ports numNodes startingPort).length = numNodes := by
  unfold ServerQuery.ports
  split
  · next h => simp [h]
  · simp

/-- C29: for node ids `a, b < numNodes` and two objects constructed with the
same `hostnames` and `ports` vectors of `numNodes` entries, the url node `a`
binds its push socket `b` to is the url node `b` connects its pull socket `a`
to, `tcp://ip(hostnames[a]):ports[b]`; the vectors `main` builds have
`numNodes` entries. -/
theorem socket_wiring_consistent (numNodes a b : Nat) (hostnames : List String)
    (ports : List Int) (getIpString : String → String)
    (ha : a < numNodes) (hb : b < numNodes)
    (hh : hostnames.length = numNodes) (hp : ports.length = numNodes) :
    pushUrl (WiringConfig.mk numNodes a hostnames ports getIpString) b =
      pullUrl (WiringConfig.mk numNodes b hostnames ports getIpString) a ∧
    (∃ hostname port, hostnames[a]? = some hostname ∧ ports[b]? = some port ∧
      pushUrl (WiringConfig.mk numNodes a hostnames ports getIpString) b =
        some ("tcp://" ++ getIpString hostname ++ ":" ++ toString port)) ∧
    (constructorSockets (WiringConfig.mk numNodes a hostnames ports getIpString))[b]?.map
        (fun x => x.1) =
      some (pushUrl (WiringConfig.mk numNodes a hostnames ports getIpString) b) ∧
    (constructorSockets (WiringConfig.mk numNodes b hostnames ports getIpString))[a]?.map
        (fun x => x.2) =
      some (pullUrl (WiringConfig.mk numNodes b hostnames ports getIpString) a) ∧
    (∀ (nn : Nat) (namePrefix : String) (startingPort : Int),
      (ServerQuery.hostnames nn namePrefix).length = nn ∧
      (ServerQuery.ports nn startingPort).length = nn) := by
  have hah : a < hostnames.length := by omega
  have hbp : b < ports.length := by omega
  refine ⟨rfl, ⟨hostnames[a], ports[b], ?_, ?_, ?_⟩, ?_, ?_, ?_⟩
  · exact List.getElem?_eq_getElem hah
  · exact List.getElem?_eq_getElem hbp
  · simp [pushUrl, List.getElem?_eq_getElem hah, List.getElem?_eq_getElem hbp]
  · simp [constructorSockets, hb]
  · simp [constructorSockets, ha]
  · intro nn namePrefix startingPort
    exact ⟨hostnames_length nn namePrefix, ports_length nn startingPort⟩

theorem socket_wiring_consistent_witness :
    pushUrl (ServerQuery.wiring 2 0 "node" 10000 id) 1 =
      pullUrl (ServerQuery.wiring 2 1 "node" 10000 id) 0 :=
  (socket_wiring_consistent 2 0 1 (ServerQuery.hostnames 2 "node") (ServerQuery.ports 2 10000) id
    (by decide) (by decide) (hostnames_length 2 "node") (ports_length 2 10000)).1

end sam
